import Mathlib

/-!
# Houdini: bind-mount setup/teardown and Windows job-object process control

A shallow embedding of `container_linux.go` (`container.setup`, `container.unsetup`) and
`process/spawn_windows.go` (`terminateJobObject`, `spawn`, `jobProcess.Signal`,
`jobProcess.Wait`, `createEnvBlock`, `lookExtensions`).

Operating-system primitives and Go standard-library functions are not part of the
repository.  They are represented by oracles: a primitive receives the history of all
earlier calls together with its arguments and answers with a result, so that the answers
may depend on everything that happened before.  Every call is appended, with its answer, to
the history; statements about "the calls a function makes" are statements about the part of
the history that the function appended.
-/

namespace Houdini

/-! ## Go values -/

/-- A Go `string`: an immutable sequence of bytes; `len` is `List.length`. -/
abbrev GoString := List UInt8

/-- The bytes of an ASCII literal. -/
def ascii (s : String) : GoString := s.toList.map (fun c => UInt8.ofNat c.toNat)

/-- A non-nil Go `error` value.  `os` stands for an error produced by the operating system
or the standard library (`syscall.Errno`, `*os.PathError`, ...), identified by its text;
`errorString` is what `fmt.Errorf` and `errors.New` build; `syscallError` is the
`*os.SyscallError` that `os.NewSyscallError` builds. -/
inductive GoError where
  | os (msg : GoString)
  | errorString (msg : GoString)
  | syscallError (syscall : GoString) (err : GoError)
  deriving DecidableEq, Repr

/-- The `Error()` method. -/
def GoError.Error : GoError → GoString
  | .os msg => msg
  | .errorString msg => msg
  | .syscallError name err => name ++ ascii ": " ++ err.Error

/-- The value of `fmt.Errorf(text + "%s", err)`: an error whose text is `text` followed by
`err.Error()`. -/
def errorf (text : String) (err : GoError) : GoError :=
  .errorString (ascii text ++ err.Error)

/-- Go's `os.NewSyscallError`: nil when `err` is nil, a `*os.SyscallError` otherwise. -/
def NewSyscallError (name : String) (err : Option GoError) : Option GoError :=
  match err with
  | none => none
  | some e => some (.syscallError (ascii name) e)

/-- The part of the history `after` that was appended to the history `before`. -/
def issued {α : Type} (before after : List α) : List α := after.drop before.length

/-! ## `container_linux.go` -/

/-- Go's `garden.BindMountModeRO` (the first constant of `garden.BindMountMode`, a `uint8`). -/
def BindMountModeRO : Nat := 0

/-- Go's `garden.BindMountModeRW`. -/
def BindMountModeRW : Nat := 1

/-- Go's `syscall.MS_BIND` on Linux. -/
def MS_BIND : Nat := 0x1000

/-- Go's `syscall.MS_RDONLY` on Linux. -/
def MS_RDONLY : Nat := 0x1

/-- Go's `syscall.MNT_FORCE` on Linux. -/
def MNT_FORCE : Nat := 0x1

/-- Go's `garden.BindMount`. -/
structure BindMount where
  SrcPath : GoString
  DstPath : GoString
  Mode : Nat
  deriving DecidableEq, Repr

/-- The fields of `container` that `setup` and `unsetup` read:
`container.workDir` and `container.spec.BindMounts`. -/
structure Container where
  workDir : GoString
  BindMounts : List BindMount
  deriving DecidableEq, Repr

/-- The operating-system calls of `container_linux.go`. -/
inductive Syscall where
  | mkdirAll (path : GoString) (perm : Nat)
  | mount (source target fstype : GoString) (flags : Nat) (data : GoString)
  | unmount (target : GoString) (flags : Nat)
  deriving DecidableEq, Repr

/-- One call together with the error it returned (`none` is nil). -/
structure Event where
  call : Syscall
  err : Option GoError
  deriving DecidableEq, Repr

/-- The host: given the history and a call, the error the call returns. -/
abbrev Kernel := List Event → Syscall → Option GoError

/-- Perform one call: ask the host and record the call with its answer. -/
def invoke (k : Kernel) (tr : List Event) (c : Syscall) : Option GoError × List Event :=
  (k tr c, tr ++ [⟨c, k tr c⟩])

/-- The body of the `for _, bm := range container.spec.BindMounts` loop of `setup`, over
the entries that remain.  `join` is `filepath.Join`. -/
def setupLoop (join : GoString → GoString → GoString) (k : Kernel) (workDir : GoString) :
    List BindMount → List Event → Option GoError × List Event
  | [], tr => (none, tr)
  | bm :: rest, tr =>
    let dest := join workDir bm.DstPath
    match invoke k tr (.mkdirAll dest 0o755) with
    | (some err, tr) => (some (errorf "failed to create target for bind mount: " err), tr)
    | (none, tr) =>
      let flags := MS_BIND
      let flags := if bm.Mode = BindMountModeRO then flags ||| MS_RDONLY else flags
      match invoke k tr (.mount bm.SrcPath dest (ascii "none") flags (ascii "")) with
      | (some err, tr) => (some err, tr)
      | (none, tr) => setupLoop join k workDir rest tr

/-- The method `container.setup`. -/
def setup (join : GoString → GoString → GoString) (k : Kernel) (container : Container)
    (tr : List Event) : Option GoError × List Event :=
  setupLoop join k container.workDir container.BindMounts tr

/-- The loop `for i := len(container.spec.BindMounts)-1; i >= 0; i--` of `unsetup`; the
first argument is `i + 1`.  The `println` and `print` diagnostics are not modelled: the
error of `Unmount` is used for nothing else. -/
def unsetupLoop (join : GoString → GoString → GoString) (k : Kernel) (container : Container) :
    Nat → List Event → List Event
  | 0, tr => tr
  | i + 1, tr =>
    match container.BindMounts[i]? with
    | none => tr
    | some bm =>
      let dest := join container.workDir bm.DstPath
      match invoke k tr (.unmount dest MNT_FORCE) with
      | (_, tr) => unsetupLoop join k container i tr

/-- The method `container.unsetup`. -/
def unsetup (join : GoString → GoString → GoString) (k : Kernel) (container : Container)
    (tr : List Event) : Option GoError × List Event :=
  (none, unsetupLoop join k container container.BindMounts.length tr)

/-- The destinations of the `Mount` calls of a history, in order. -/
def mountTargets : List Event → List GoString
  | [] => []
  | ⟨.mount _ target _ _ _, _⟩ :: rest => target :: mountTargets rest
  | _ :: rest => mountTargets rest

/-- The destinations of the `Unmount` calls of a history, in order. -/
def unmountTargets : List Event → List GoString
  | [] => []
  | ⟨.unmount target _, _⟩ :: rest => target :: unmountTargets rest
  | _ :: rest => unmountTargets rest

/-- The two events of an entry of `setup` that goes through. -/
def entryEvents (join : GoString → GoString → GoString) (workDir : GoString)
    (bm : BindMount) : List Event :=
  [⟨.mkdirAll (join workDir bm.DstPath) 0o755, none⟩,
   ⟨.mount bm.SrcPath (join workDir bm.DstPath) (ascii "none")
      (if bm.Mode = BindMountModeRO then MS_BIND ||| MS_RDONLY else MS_BIND) (ascii ""), none⟩]

/-- The events of a run of entries of `setup` that all go through. -/
def okEvents (join : GoString → GoString → GoString) (workDir : GoString) :
    List BindMount → List Event
  | [] => []
  | bm :: rest => entryEvents join workDir bm ++ okEvents join workDir rest

/-! ## Go standard library

The functions of `path/filepath`, `os/exec` and `syscall` that the repository calls are
parameters of the embedding (`GoLib`).  `unixJoin` and `goWindows` are executable models of
them, following the library's source (Go 1.8 to 1.19, where the algorithms below did not
change), on which the statements are evaluated at concrete inputs. -/

/-- The library functions used by `lookExtensions`, `makeCmdLine` and `spawn`
(`filepath.Base`, `filepath.Join`, `filepath.VolumeName`, `os.IsPathSeparator`,
`exec.LookPath`, `syscall.EscapeArg`). -/
structure GoLib where
  Base : GoString → GoString
  Join : GoString → GoString → GoString
  VolumeName : GoString → GoString
  IsPathSeparator : UInt8 → Bool
  LookPath : GoString → GoString × Option GoError
  EscapeArg : GoString → GoString

/-- The elements of a path: the pieces between separators. -/
def splitElems (isSep : UInt8 → Bool) : GoString → List GoString
  | [] => [[]]
  | c :: rest =>
    if isSep c then [] :: splitElems isSep rest
    else
      match splitElems isSep rest with
      | [] => [[c]]
      | e :: es => (c :: e) :: es

/-- The loop `for out.w > dotdot && !os.IsPathSeparator(out.index(out.w)) { out.w-- }` of
`filepath.Clean`, started at `w`. -/
def backtrackTo (isSep : UInt8 → Bool) (out : GoString) (dotdot : Nat) : Nat → Nat
  | 0 => 0
  | w + 1 => if dotdot < w + 1 ∧ ¬ isSep (out.getD (w + 1) 0) then backtrackTo isSep out dotdot w
    else w + 1

/-- The output buffer of `filepath.Clean` and the index `dotdot` where `..` must stop. -/
structure CleanState where
  out : GoString
  dotdot : Nat

/-- One round of the main loop of `filepath.Clean`, on the path element `e`. -/
def cleanElem (isSep : UInt8 → Bool) (sep : UInt8) (rooted : Bool) (st : CleanState)
    (e : GoString) : CleanState :=
  if e = [] ∨ e = ascii "." then st
  else if e = ascii ".." then
    if st.dotdot < st.out.length then
      ⟨st.out.take (backtrackTo isSep st.out st.dotdot (st.out.length - 1)), st.dotdot⟩
    else if rooted then st
    else
      let out := (if 0 < st.out.length then st.out ++ [sep] else st.out) ++ ascii ".."
      ⟨out, out.length⟩
  else
    let out := if (rooted ∧ st.out.length ≠ 1) ∨ (¬ rooted ∧ st.out.length ≠ 0)
      then st.out ++ [sep] else st.out
    ⟨out ++ e, st.dotdot⟩

/-- The part of `filepath.Clean` that works on a non-empty path without volume name. -/
def cleanBody (isSep : UInt8 → Bool) (sep : UInt8) (path : GoString) : GoString :=
  let rooted := isSep (path.getD 0 0)
  let init : CleanState := if rooted then ⟨[sep], 1⟩ else ⟨[], 0⟩
  let st := (splitElems isSep path).foldl (cleanElem isSep sep rooted) init
  if st.out.length = 0 then ascii "." else st.out

/-- Go's `filepath.Clean` on Unix. -/
def unixClean (path : GoString) : GoString :=
  if path = [] then ascii "." else cleanBody (fun c => c = 47) 47 path

/-- Go's `filepath.Join` of two elements on Unix. -/
def unixJoin (a b : GoString) : GoString :=
  if a ≠ [] then unixClean (a ++ ascii "/" ++ b)
  else if b ≠ [] then unixClean b
  else []

/-- Go's `os.IsPathSeparator` on Windows: backslash or slash. -/
def winIsPathSeparator (c : UInt8) : Bool := c = 92 || c = 47

/-- The index of the first separator of `path` at or after `start` and before `stop`. -/
def findSeparator (path : GoString) (start stop : Nat) : Option Nat :=
  ((List.range stop).drop start).find? (fun n => winIsPathSeparator (path.getD n 0))

/-- Go's `volumeNameLen` on Windows: a drive letter with colon, or the server and share of a
UNC path. -/
def winVolumeNameLen (path : GoString) : Nat :=
  let l := path.length
  if l < 2 then 0
  else
    let c := path.getD 0 0
    if path.getD 1 0 = 58 ∧ ((97 ≤ c ∧ c ≤ 122) ∨ (65 ≤ c ∧ c ≤ 90)) then 2
    else if 5 ≤ l ∧ winIsPathSeparator (path.getD 0 0) ∧ winIsPathSeparator (path.getD 1 0) ∧
        ¬ winIsPathSeparator (path.getD 2 0) ∧ path.getD 2 0 ≠ 46 then
      match findSeparator path 3 (l - 1) with
      | none => 0
      | some n =>
        if winIsPathSeparator (path.getD (n + 1) 0) then 0
        else if path.getD (n + 1) 0 = 46 then 0
        else
          match findSeparator path (n + 1) l with
          | none => l
          | some m => m
    else 0

/-- Go's `filepath.VolumeName` on Windows. -/
def winVolumeName (path : GoString) : GoString := path.take (winVolumeNameLen path)

/-- Go's `filepath.FromSlash` on Windows. -/
def winFromSlash (path : GoString) : GoString := path.map (fun c => if c = 47 then 92 else c)

/-- Go's `filepath.Clean` on Windows. -/
def winClean (originalPath : GoString) : GoString :=
  let volLen := winVolumeNameLen originalPath
  let path := originalPath.drop volLen
  if path = [] then
    if 1 < volLen ∧ originalPath.getD 1 0 ≠ 58 then winFromSlash originalPath
    else originalPath ++ ascii "."
  else winFromSlash (originalPath.take volLen ++ cleanBody winIsPathSeparator 92 path)

/-- The loop of `filepath.Base` that strips trailing separators. -/
def stripTrailingSeparators (path : GoString) : GoString :=
  (path.reverse.dropWhile winIsPathSeparator).reverse

/-- Go's `filepath.Base` on Windows. -/
def winBase (path : GoString) : GoString :=
  if path = [] then ascii "."
  else
    let path := stripTrailingSeparators path
    let path := path.drop (winVolumeName path).length
    let path := (path.reverse.takeWhile (fun c => ! winIsPathSeparator c)).reverse
    if path = [] then [92] else path

/-- Go's `isUNC` of `path/filepath` on Windows. -/
def winIsUNC (path : GoString) : Bool := decide (2 < winVolumeNameLen path)

/-- Go's `filepath.Join` of two elements on Windows (`join` and `joinNonEmpty`). -/
def winJoin (a b : GoString) : GoString :=
  if a ≠ [] then
    if a.length = 2 ∧ a.getD 1 0 = 58 then winClean (a ++ b)
    else
      let p := winClean (a ++ [92] ++ b)
      if ¬ winIsUNC p then p
      else
        let head := winClean a
        if winIsUNC head then p
        else
          let tail := winClean b
          if head.getLast? = some 92 then head ++ tail else head ++ [92] ++ tail
  else if b ≠ [] then winClean b
  else []

/-- The library on Windows over a file system in which `exec.LookPath` finds every file
under the name it is asked for, with arguments that `syscall.EscapeArg` leaves as they are
(non-empty, without blank, tab, quote or backslash). -/
def goWindows : GoLib where
  Base := winBase
  Join := winJoin
  VolumeName := winVolumeName
  IsPathSeparator := winIsPathSeparator
  LookPath := fun file => (file, none)
  EscapeArg := fun s => s

/-! ### `unicode/utf8` and `unicode/utf16` -/

/-- Go's `utf8.RuneError`, the replacement character. -/
def RuneError : Nat := 0xFFFD

/-- Go's `utf8.DecodeRuneInString` on a non-empty string: the first code point and the number
of bytes it takes; `(RuneError, 1)` for a byte that does not start a valid encoding. -/
def decodeRune : List UInt8 → Nat × Nat
  | [] => (RuneError, 0)
  | b0 :: rest =>
    let s0 := b0.toNat
    if s0 < 0x80 then (s0, 1)
    else if s0 < 0xC2 ∨ 0xF4 < s0 then (RuneError, 1)
    else
      let lo := if s0 = 0xE0 then 0xA0 else if s0 = 0xF0 then 0x90 else 0x80
      let hi := if s0 = 0xED then 0x9F else if s0 = 0xF4 then 0x8F else 0xBF
      match rest with
      | [] => (RuneError, 1)
      | b1 :: rest1 =>
        let s1 := b1.toNat
        if s1 < lo ∨ hi < s1 then (RuneError, 1)
        else if s0 < 0xE0 then ((s0 % 0x20) * 0x40 + s1 % 0x40, 2)
        else
          match rest1 with
          | [] => (RuneError, 1)
          | b2 :: rest2 =>
            let s2 := b2.toNat
            if s2 < 0x80 ∨ 0xBF < s2 then (RuneError, 1)
            else if s0 < 0xF0 then
              ((s0 % 0x10) * 0x1000 + (s1 % 0x40) * 0x40 + s2 % 0x40, 3)
            else
              match rest2 with
              | [] => (RuneError, 1)
              | b3 :: _ =>
                let s3 := b3.toNat
                if s3 < 0x80 ∨ 0xBF < s3 then (RuneError, 1)
                else
                  ((s0 % 0x08) * 0x40000 + (s1 % 0x40) * 0x1000 + (s2 % 0x40) * 0x40
                    + s3 % 0x40, 4)

/-- The loop of the conversion `[]rune(s)`: decode code points until the string is used
up.  Every round removes at least one byte, so `fuel = len(s)` rounds are enough. -/
def runesLoop : Nat → List UInt8 → List Nat
  | 0, _ => []
  | fuel + 1, s =>
    if s = [] then []
    else (decodeRune s).1 :: runesLoop fuel (s.drop (decodeRune s).2)

/-- The conversion `[]rune(s)`: the code points of the UTF-8 text `s`, every byte that
does not start a valid encoding giving `RuneError`. -/
def runes (s : List UInt8) : List Nat := runesLoop s.length s

/-- Go's `utf16.Encode`: the UTF-16 code units of a sequence of code points. -/
def utf16Encode : List Nat → List Nat
  | [] => []
  | r :: rest =>
    if r < 0xD800 ∨ (0xE000 ≤ r ∧ r < 0x10000) then r :: utf16Encode rest
    else if 0x10000 ≤ r ∧ r ≤ 0x10FFFF then
      (0xD800 + ((r - 0x10000) / 0x400) % 0x400) :: (0xDC00 + (r - 0x10000) % 0x400)
        :: utf16Encode rest
    else 0xFFFD :: utf16Encode rest

/-- Go's `syscall.UTF16FromString` behind `syscall.UTF16PtrFromString`: `EINVAL` when the
string contains a NUL byte, the NUL-terminated UTF-16 text otherwise. -/
def UTF16PtrFromString (s : GoString) : Except GoError (List Nat) :=
  if (0 : UInt8) ∈ s then .error (.os (ascii "invalid argument"))
  else .ok (utf16Encode (runes (s ++ [0])))

/-! ## `process/spawn_windows.go` -/

/-- Go's `syscall.Handle`, a `uintptr`. -/
abbrev Handle := Nat

/-- An `*os.File`, identified by the handle that `File.Fd()` returns. -/
abbrev File := Handle

/-- An `io.Writer` of the caller, identified by a number. -/
abbrev Writer := Nat

/-- The result of a call that returns a value or a non-nil error. -/
inductive Res (α : Type) where
  | ok (val : α)
  | fail (err : GoError)
  deriving DecidableEq, Repr

/-- What differs between the Windows targets of Go, and the constants of the repository's
package `win32`, which the embedding takes as parameters: the width in bits of `int` and
`uintptr`, `unsafe.Sizeof(syscall.StartupInfo{})`, `win32.CREATE_SUSPENDED` and
`win32.CREATE_BREAKAWAY_FROM_JOB` (constants of type `uint32`). -/
structure Platform where
  intSize : Nat
  sizeofStartupInfo : Nat
  CREATE_SUSPENDED : Nat
  CREATE_BREAKAWAY_FROM_JOB : Nat

/-- The target `windows/amd64`, with the values of the Windows SDK for the constants. -/
def windowsAmd64 : Platform := ⟨64, 104, 0x00000004, 0x01000000⟩

/-- The target `windows/386`, with the values of the Windows SDK for the constants. -/
def windows386 : Platform := ⟨32, 68, 0x00000004, 0x01000000⟩

/-- The conversion `int(x)` of an unsigned value to an `int` of `bits` bits: the value is
reduced modulo `2 ^ bits` and read in two's complement. -/
def toInt (bits : Nat) (x : Nat) : Int :=
  if x % 2 ^ bits < 2 ^ (bits - 1) then ((x % 2 ^ bits : Nat) : Int)
  else ((x % 2 ^ bits : Nat) : Int) - ((2 ^ bits : Nat) : Int)

/-- Go's `syscall.CREATE_UNICODE_ENVIRONMENT`. -/
def CREATE_UNICODE_ENVIRONMENT : Nat := 0x00000400

/-- Go's `syscall.STARTF_USESTDHANDLES`. -/
def STARTF_USESTDHANDLES : Nat := 0x00000100

/-- Go's `syscall.DUPLICATE_SAME_ACCESS`. -/
def DUPLICATE_SAME_ACCESS : Nat := 0x00000002

/-- Go's `syscall.INFINITE`. -/
def INFINITE : Nat := 0xffffffff

/-- Go's `syscall.WAIT_OBJECT_0`. -/
def WAIT_OBJECT_0 : Nat := 0x00000000

/-- Go's `syscall.WAIT_FAILED`. -/
def WAIT_FAILED : Nat := 0xFFFFFFFF

/-- Go's `syscall.ProcessInformation`. -/
structure ProcessInformation where
  Process : Handle
  Thread : Handle
  ProcessId : Nat
  ThreadId : Nat
  deriving DecidableEq, Repr

/-- The fields of `syscall.StartupInfo` that `spawn` sets. -/
structure StartupInfo where
  Cb : Nat
  Flags : Nat
  StdInput : Handle
  StdOutput : Handle
  StdErr : Handle
  deriving DecidableEq, Repr

/-- The fields of `exec.Cmd` that `spawn` reads. -/
structure Cmd where
  Path : GoString
  Args : List GoString
  Env : List GoString
  Dir : GoString
  deriving DecidableEq, Repr

/-- Go's `syscall.ProcAttr` as `spawn` fills it. -/
structure ProcAttr where
  Dir : GoString
  Env : List GoString
  Files : List Handle
  deriving DecidableEq, Repr

/-- The type `jobProcess`. -/
structure jobProcess where
  jobHandle : Handle
  processHandle : Handle
  deriving DecidableEq, Repr

/-- The calls of `spawn_windows.go` into the operating system and the Go runtime.
`goCopy dst src` is the statement `go io.Copy(dst, src)`, `FileClose` is `(*os.File).Close`,
`Now` is `time.Now().UnixNano()`, `TerminateJobObject` is the call through
`procTerminateJobObject`; strings passed as `*uint16` are lists of UTF-16 code units. -/
inductive WinCall where
  | Pipe
  | goCopy (dst : Writer) (src : File)
  | ForkLockLock
  | ForkLockUnlock
  | GetCurrentProcess
  | DuplicateHandle (hSourceProcess hSource hTargetProcess : Handle) (access : Nat)
      (inherit : Bool) (options : Nat)
  | CloseHandle (h : Handle)
  | CreateProcess (appName commandLine : List Nat) (inheritHandles : Bool)
      (creationFlags : Nat) (env currentDir : List Nat) (startupInfo : StartupInfo)
  | FileClose (f : File)
  | Now
  | CreateJobObject (name : List Nat)
  | AssignProcessToJobObject (job process : Handle)
  | ResumeThread (thread : Handle)
  | TerminateJobObject (job : Handle) (exitCode : Nat)
  | WaitForSingleObject (h : Handle) (milliseconds : Nat)
  | GetExitCodeProcess (h : Handle)
  | GetProcessTimes (h : Handle)
  | Sleep (nanoseconds : Nat)
  deriving DecidableEq, Repr

/-- What a call returned.  `unused` is for calls without result and for results that the
caller drops; `called r1 lastErr` is the result of `(*LazyProc).Call`; `waited s e` the
result of `WaitForSingleObject`. -/
inductive WinResult where
  | unused
  | err (e : Option GoError)
  | pipe (r : Res (File × File))
  | handle (r : Res Handle)
  | process (r : Res ProcessInformation)
  | number (r : Res Nat)
  | time (t : Int)
  | called (r1 : Nat) (lastErr : Option GoError)
  | waited (s : Nat) (e : Option GoError)
  deriving DecidableEq, Repr

/-- One call together with what it returned. -/
structure WinEvent where
  call : WinCall
  result : WinResult
  deriving DecidableEq, Repr

/-- The host: for every primitive, given the history and the arguments, its result. -/
structure Windows where
  Pipe : List WinEvent → Res (File × File)
  GetCurrentProcess : List WinEvent → Handle
  DuplicateHandle : List WinEvent → Handle → Handle → Handle → Nat → Bool → Nat → Res Handle
  CloseHandle : List WinEvent → Handle → Option GoError
  CreateProcess : List WinEvent → List Nat → List Nat → Bool → Nat → List Nat → List Nat →
    StartupInfo → Res ProcessInformation
  FileClose : List WinEvent → File → Option GoError
  Now : List WinEvent → Int
  CreateJobObject : List WinEvent → List Nat → Res Handle
  AssignProcessToJobObject : List WinEvent → Handle → Handle → Option GoError
  ResumeThread : List WinEvent → Handle → Res Nat
  TerminateJobObject : List WinEvent → Handle → Nat → Nat × Option GoError
  WaitForSingleObject : List WinEvent → Handle → Nat → Nat × Option GoError
  GetExitCodeProcess : List WinEvent → Handle → Res Nat
  GetProcessTimes : List WinEvent → Handle → Option GoError

/-- Append a call and its result to the history. -/
def record (tr : List WinEvent) (c : WinCall) (r : WinResult) : List WinEvent :=
  tr ++ [⟨c, r⟩]

/-- The function `terminateJobObject`. -/
def terminateJobObject (pf : Platform) (os : Windows) (thread : Handle) (exitCode : Nat)
    (tr : List WinEvent) : Option GoError × List WinEvent :=
  match os.TerminateJobObject tr thread exitCode with
  | (r1, e1) =>
    let tr := record tr (.TerminateJobObject thread exitCode) (.called r1 e1)
    if toInt pf.intSize r1 ≠ 0 then (NewSyscallError "TerminateJobObject" e1, tr)
    else (none, tr)

/-- The method `jobProcess.Signal`; the signal is not used. -/
def jobProcess.Signal (pf : Platform) (os : Windows) (process : jobProcess) (_signal : Nat)
    (tr : List WinEvent) : Option GoError × List WinEvent :=
  terminateJobObject pf os process.jobHandle 1 tr

/-- The deferred calls of `Wait`, in the order in which they run: first
`syscall.CloseHandle(process.processHandle)`, then `time.Sleep(5 * time.Millisecond)`. -/
def waitDeferred (os : Windows) (process : jobProcess) (tr : List WinEvent) : List WinEvent :=
  let tr := record tr (.CloseHandle process.processHandle)
    (.err (os.CloseHandle tr process.processHandle))
  record tr (.Sleep 5000000) .unused

/-- The method `jobProcess.Wait`. -/
def jobProcess.Wait (pf : Platform) (os : Windows) (process : jobProcess)
    (tr : List WinEvent) : (Int × Option GoError) × List WinEvent :=
  match os.WaitForSingleObject tr process.processHandle INFINITE with
  | (s, e) =>
    let tr := record tr (.WaitForSingleObject process.processHandle INFINITE) (.waited s e)
    if s % 2 ^ 32 = WAIT_OBJECT_0 then
      match os.GetExitCodeProcess tr process.processHandle with
      | .fail e =>
        ((-1, NewSyscallError "GetExitCodeProcess" (some e)),
          record tr (.GetExitCodeProcess process.processHandle) (.number (.fail e)))
      | .ok code =>
        let ec := code % 2 ^ 32
        let tr := record tr (.GetExitCodeProcess process.processHandle) (.number (.ok code))
        match os.GetProcessTimes tr process.processHandle with
        | some e =>
          ((-1, NewSyscallError "GetProcessTimes" (some e)),
            record tr (.GetProcessTimes process.processHandle) (.err (some e)))
        | none =>
          let tr := record tr (.GetProcessTimes process.processHandle) (.err none)
          ((toInt pf.intSize ec, none), waitDeferred os process tr)
    else if s % 2 ^ 32 = WAIT_FAILED then
      ((-1, NewSyscallError "WaitForSingleObject" e), tr)
    else
      ((-1, some (.errorString (ascii "os: unexpected result from WaitForSingleObject"))), tr)

/-- The method `jobProcess.SetWindowSize`. -/
def jobProcess.SetWindowSize (_process : jobProcess) (_size : Nat × Nat) : Option GoError :=
  none

/-- The function `makeCmdLine`. -/
def makeCmdLine (lib : GoLib) (args : List GoString) : GoString :=
  args.foldl (fun s v => (if s ≠ [] then s ++ ascii " " else s) ++ lib.EscapeArg v) []

/-- The statement `n := copy(b[lo:hi], src)`: `none` is the run-time panic for slice bounds
out of range (the capacity of `b` is its length); otherwise the buffer after the copy and
the number `n` of bytes copied, the smaller of the two lengths. -/
def copyInto (b : List UInt8) (lo hi : Nat) (src : List UInt8) : Option (List UInt8 × Nat) :=
  if lo ≤ hi ∧ hi ≤ b.length then
    let n := min (hi - lo) src.length
    some (b.take lo ++ src.take n ++ b.drop (lo + n), n)
  else none

/-- The state of the second loop of `createEnvBlock`: the buffer `b`, the index `i`, and
the list of the writes made so far, each as the pair of its first index and its number of
bytes. -/
structure EnvFill where
  b : List UInt8
  i : Nat
  writes : List (Nat × Nat)
  deriving DecidableEq, Repr

/-- The second loop of `createEnvBlock`, `for _, s := range envv`, over the strings that
remain. -/
def fillEnv : List GoString → EnvFill → Option EnvFill
  | [], st => some st
  | s :: rest, st =>
    let l := s.length
    match copyInto st.b st.i (st.i + l) s with
    | none => none
    | some (b, n1) =>
      match copyInto b (st.i + l) (st.i + l + 1) [0] with
      | none => none
      | some (b, n2) =>
        fillEnv rest ⟨b, st.i + l + 1, st.writes ++ [(st.i, n1), (st.i + l, n2)]⟩

/-- The byte buffer `b` that `createEnvBlock` builds for a non-empty `envv`, as it is when
it is handed to `utf16.Encode`, with the list of the writes that filled it; `none` is a
panic. -/
def createEnvBuffer (envv : List GoString) : Option EnvFill :=
  let length := 0
  let length := envv.foldl (fun length s => length + (s.length + 1)) length
  let length := length + 1
  let b : List UInt8 := List.replicate length 0
  match fillEnv envv ⟨b, 0, []⟩ with
  | none => none
  | some st =>
    match copyInto st.b st.i (st.i + 1) [0] with
    | none => none
    | some (b, n) => some ⟨b, st.i, st.writes ++ [(st.i, n)]⟩

/-- The function `createEnvBlock`: the UTF-16 code units of the block whose first element
the returned pointer points to; `none` is a panic. -/
def createEnvBlock (envv : List GoString) : Option (List Nat) :=
  if envv.length = 0 then some (utf16Encode (runes [0, 0]))
  else
    match createEnvBuffer envv with
    | none => none
    | some st => some (utf16Encode (runes st.b))

/-- The function `lookExtensions`. -/
def lookExtensions (lib : GoLib) (path dir : GoString) : GoString × Option GoError :=
  let path := if lib.Base path = path then lib.Join (ascii ".") path else path
  if dir = [] then lib.LookPath path
  else if lib.VolumeName path ≠ [] then lib.LookPath path
  else if 1 < path.length ∧ lib.IsPathSeparator (path.getD 0 0) = true then lib.LookPath path
  else lib.LookPath (lib.Join dir path)

/-- Run the deferred calls of `spawn`, given in the order in which they run (the last one
registered first).  The result of a deferred `syscall.CloseHandle` is dropped. -/
def runDeferred (os : Windows) : List WinCall → List WinEvent → List WinEvent
  | [], tr => tr
  | .CloseHandle h :: rest, tr =>
    runDeferred os rest (record tr (.CloseHandle h) (.err (os.CloseHandle tr h)))
  | c :: rest, tr => runDeferred os rest (record tr c .unused)

/-- The loop `for i := range attr.Files` of `spawn`, over the files that remain: `fd`
holds the entries `fd[0..i)` and `defers` the deferred calls registered so far. -/
def duplicateHandles (os : Windows) (p : Handle) :
    List Handle → List Handle → List WinCall → List WinEvent →
      Res (List Handle) × List WinCall × List WinEvent
  | [], fd, defers, tr => (.ok fd, defers, tr)
  | file :: files, fd, defers, tr =>
    if 0 < file then
      match os.DuplicateHandle tr p file p 0 true DUPLICATE_SAME_ACCESS with
      | .fail err =>
        (.fail err, defers,
          record tr (.DuplicateHandle p file p 0 true DUPLICATE_SAME_ACCESS) (.handle (.fail err)))
      | .ok h =>
        duplicateHandles os p files (fd ++ [h]) (.CloseHandle h :: defers)
          (record tr (.DuplicateHandle p file p 0 true DUPLICATE_SAME_ACCESS) (.handle (.ok h)))
    else duplicateHandles os p files (fd ++ [0]) defers tr

/-- How a call of `spawn` ends: with a process and the write end of its standard input,
with an error, or with a panic. -/
inductive SpawnResult where
  | ok (process : jobProcess) (stdin : File)
  | error (err : GoError)
  | panic
  deriving DecidableEq, Repr

/-- The part of `spawn` after `CreateProcess` has succeeded: the parent's copies of the
child's pipe ends are closed, the job is created, the process is assigned to it and its
thread is resumed.  `defers` are the deferred calls, run when the function returns. -/
def spawnJob (os : Windows) (process : ProcessInformation) (ri wo we wi : File)
    (defers : List WinCall) (tr : List WinEvent) : SpawnResult × List WinEvent :=
  let tr := record tr (.FileClose ri) (.err (os.FileClose tr ri))
  let tr := record tr (.FileClose wo) (.err (os.FileClose tr wo))
  let tr := record tr (.FileClose we) (.err (os.FileClose tr we))
  let now := os.Now tr
  let tr := record tr .Now (.time now)
  match UTF16PtrFromString (ascii (toString now)) with
  | .error err => (.error (errorf "stringing failed: " err), runDeferred os defers tr)
  | .ok jobName =>
    match os.CreateJobObject tr jobName with
    | .fail err =>
      (.error (errorf "create job failed: " err),
        runDeferred os defers (record tr (.CreateJobObject jobName) (.handle (.fail err))))
    | .ok jobHandle =>
      let tr := record tr (.CreateJobObject jobName) (.handle (.ok jobHandle))
      match os.AssignProcessToJobObject tr jobHandle process.Process with
      | some err =>
        (.error (errorf "assign failed: " err),
          runDeferred os defers
            (record tr (.AssignProcessToJobObject jobHandle process.Process) (.err (some err))))
      | none =>
        let tr := record tr (.AssignProcessToJobObject jobHandle process.Process) (.err none)
        match os.ResumeThread tr process.Thread with
        | .fail err =>
          (.error (errorf "resume failed: " err),
            runDeferred os defers
              (record tr (.ResumeThread process.Thread) (.number (.fail err))))
        | .ok count =>
          (.ok ⟨jobHandle, process.Process⟩ wi,
            runDeferred os defers
              (record tr (.ResumeThread process.Thread) (.number (.ok count))))

/-- The part of `spawn` after the three pipes exist: the copy goroutines are started, the
executable is looked up, the child's ends are duplicated as inheritable handles and the
process is created. -/
def spawnProcess (pf : Platform) (lib : GoLib) (os : Windows) (cmd : Cmd)
    (stdout stderr : Writer) (ro wo re we ri wi : File) (tr : List WinEvent) :
    SpawnResult × List WinEvent :=
  let tr := record tr (.goCopy stdout ro) .unused
  let tr := record tr (.goCopy stderr re) .unused
  let attr : ProcAttr := { Dir := cmd.Dir, Env := cmd.Env, Files := [ri, wo, we] }
  match lookExtensions lib cmd.Path cmd.Dir with
  | (_, some err) => (.error (errorf "look extensions failed: " err), tr)
  | (lookedUpPath, none) =>
    let tr := record tr .ForkLockLock .unused
    let defers := [WinCall.ForkLockUnlock]
    let p := os.GetCurrentProcess tr
    let tr := record tr .GetCurrentProcess (.handle (.ok p))
    match duplicateHandles os p attr.Files [] defers tr with
    | (.fail err, defers, tr) =>
      (.error (errorf "duplicating handle failed: " err), runDeferred os defers tr)
    | (.ok fd, defers, tr) =>
      let si : StartupInfo :=
        { Cb := pf.sizeofStartupInfo % 2 ^ 32
          Flags := STARTF_USESTDHANDLES
          StdInput := fd.getD 0 0
          StdOutput := fd.getD 1 0
          StdErr := fd.getD 2 0 }
      let flags := CREATE_UNICODE_ENVIRONMENT
      let flags := flags ||| pf.CREATE_SUSPENDED
      let flags := flags ||| pf.CREATE_BREAKAWAY_FROM_JOB
      match UTF16PtrFromString lookedUpPath with
      | .error err => (.error (errorf "stringing failed: " err), runDeferred os defers tr)
      | .ok argvp0 =>
        match UTF16PtrFromString (makeCmdLine lib cmd.Args) with
        | .error err => (.error (errorf "stringing failed: " err), runDeferred os defers tr)
        | .ok argvp0v0v0v0 =>
          match UTF16PtrFromString attr.Dir with
          | .error err => (.error (errorf "stringing failed: " err), runDeferred os defers tr)
          | .ok dirp =>
            match createEnvBlock attr.Env with
            | none => (.panic, runDeferred os defers tr)
            | some env =>
              match os.CreateProcess tr argvp0 argvp0v0v0v0 true flags env dirp si with
              | .fail err =>
                (.error (errorf "create process: " err),
                  runDeferred os defers
                    (record tr (.CreateProcess argvp0 argvp0v0v0v0 true flags env dirp si)
                      (.process (.fail err))))
              | .ok process =>
                spawnJob os process ri wo we wi defers
                  (record tr (.CreateProcess argvp0 argvp0v0v0v0 true flags env dirp si)
                    (.process (.ok process)))

/-- The function `spawn`.  The TTY specification is not used. -/
def spawn (pf : Platform) (lib : GoLib) (os : Windows) (cmd : Cmd) (stdout stderr : Writer)
    (tr : List WinEvent) : SpawnResult × List WinEvent :=
  match os.Pipe tr with
  | .fail err => (.error (errorf "pipe failed: " err), record tr .Pipe (.pipe (.fail err)))
  | .ok (ro, wo) =>
    let tr := record tr .Pipe (.pipe (.ok (ro, wo)))
    match os.Pipe tr with
    | .fail err => (.error (errorf "pipe failed: " err), record tr .Pipe (.pipe (.fail err)))
    | .ok (re, we) =>
      let tr := record tr .Pipe (.pipe (.ok (re, we)))
      match os.Pipe tr with
      | .fail err => (.error (errorf "pipe failed: " err), record tr .Pipe (.pipe (.fail err)))
      | .ok (ri, wi) =>
        spawnProcess pf lib os cmd stdout stderr ro wo re we ri wi
          (record tr .Pipe (.pipe (.ok (ri, wi))))

/-- Whether a path begins with a path separator. -/
def beginsWithSeparator (lib : GoLib) : GoString → Bool
  | [] => false
  | c :: _ => lib.IsPathSeparator c

/-- The given path, a bare file name (one that `filepath.Base` leaves as it is) rewritten
as `filepath.Join(".", name)`. -/
def rewrittenBareName (lib : GoLib) (path : GoString) : GoString :=
  if lib.Base path = path then lib.Join (ascii ".") path else path

/-- The candidate as the specification describes it: `dir` joined with the path exactly
when `dir` is not empty, the given path does not begin with a path separator and has no
volume name; the path itself otherwise, a bare file name rewritten. -/
def describedCandidate (lib : GoLib) (path dir : GoString) : GoString :=
  if dir ≠ [] ∧ beginsWithSeparator lib path = false ∧ lib.VolumeName path = [] then
    lib.Join dir path
  else rewrittenBareName lib path

/-- The number of writes of a list of writes that touch the byte at index `k`. -/
def writeCount (writes : List (Nat × Nat)) (k : Nat) : Nat :=
  writes.countP (fun w => decide (w.1 ≤ k ∧ k < w.1 + w.2))

/-- The block as the specification describes it: every string followed by one NUL byte, in
list order, and one final NUL byte. -/
def describedEnvBytes (envv : List GoString) : List UInt8 :=
  (envv.map (fun s => s ++ [0])).flatten ++ [0]

/-! ### Views of a history of `spawn` -/

/-- The deferred calls that `spawn` registers: `syscall.CloseHandle` of a duplicated handle
and `syscall.ForkLock.Unlock`. -/
def WinCall.isCleanup : WinCall → Bool
  | .CloseHandle _ => true
  | .ForkLockUnlock => true
  | _ => false

/-- The calls that open or close a pipe end or act on the child process and its job. -/
def WinEvent.isRelevant (ev : WinEvent) : Bool :=
  match ev.call with
  | .Pipe => true
  | .CreateProcess _ _ _ _ _ _ _ => true
  | .FileClose _ => true
  | .CreateJobObject _ => true
  | .AssignProcessToJobObject _ _ => true
  | .ResumeThread _ => true
  | _ => false

/-- The events of a history that open or close a pipe end or act on the child process and
its job. -/
def relevant (evs : List WinEvent) : List WinEvent := evs.filter WinEvent.isRelevant

/-- The calls `CreateProcess`, `CreateJobObject`, `AssignProcessToJobObject` and
`ResumeThread`. -/
def WinEvent.isJobCall (ev : WinEvent) : Bool :=
  match ev.call with
  | .CreateProcess _ _ _ _ _ _ _ => true
  | .CreateJobObject _ => true
  | .AssignProcessToJobObject _ _ => true
  | .ResumeThread _ => true
  | _ => false

/-- The `CreateProcess`, `CreateJobObject`, `AssignProcessToJobObject` and `ResumeThread`
events of a history, in order. -/
def jobCalls (evs : List WinEvent) : List WinEvent := evs.filter WinEvent.isJobCall

/-- The files on which `Close` was called, in order. -/
def fileCloses (evs : List WinEvent) : List File :=
  evs.filterMap (fun ev => match ev.call with
    | .FileClose f => some f
    | _ => none)

/-- The handles on which `syscall.CloseHandle` was called, in order. -/
def closedHandles (evs : List WinEvent) : List Handle :=
  evs.filterMap (fun ev => match ev.call with
    | .CloseHandle h => some h
    | _ => none)

/-- The pipe ends that successful `os.Pipe` calls returned, in order: read end, write end. -/
def pipesOpened (evs : List WinEvent) : List File :=
  evs.flatMap (fun ev => match ev with
    | ⟨.Pipe, .pipe (.ok (r, w))⟩ => [r, w]
    | _ => [])

/-- The pipe ends opened in a history that were closed neither by `Close` nor by
`syscall.CloseHandle` in it. -/
def stillOpen (evs : List WinEvent) : List File :=
  (pipesOpened evs).filter (fun f => decide (f ∉ fileCloses evs ∧ f ∉ closedHandles evs))

/-- Whether a history contains a successful `CreateProcess`. -/
def processCreated (evs : List WinEvent) : Bool :=
  evs.any (fun ev => match ev with
    | ⟨.CreateProcess _ _ _ _ _ _ _, .process (.ok _)⟩ => true
    | _ => false)

/-- The creation flags that `spawn` passes to `CreateProcess`. -/
def spawnFlags (pf : Platform) : Nat :=
  CREATE_UNICODE_ENVIRONMENT ||| pf.CREATE_SUSPENDED ||| pf.CREATE_BREAKAWAY_FROM_JOB

/-- The three `Close` events of `spawn`, on the parent's copies of the child's pipe ends,
with the errors they returned. -/
def closeEvents (ri wo we : File) (e1 e2 e3 : Option GoError) : List WinEvent :=
  [⟨.FileClose ri, .err e1⟩, ⟨.FileClose wo, .err e2⟩, ⟨.FileClose we, .err e3⟩]

/-- The relevant events that `spawnJob` can leave behind, with its result: the three
`Close` events and then the job calls up to the first one that fails. -/
def SpawnJobShape (process : ProcessInformation) (ri wo we wi : File) (r : SpawnResult)
    (evs : List WinEvent) : Prop :=
  ∃ e1 e2 e3,
    (∃ err, r = .error err ∧ evs = closeEvents ri wo we e1 e2 e3) ∨
    (∃ name err, r = .error (errorf "create job failed: " err) ∧
      evs = closeEvents ri wo we e1 e2 e3 ++
        [⟨.CreateJobObject name, .handle (.fail err)⟩]) ∨
    (∃ name job err, r = .error (errorf "assign failed: " err) ∧
      evs = closeEvents ri wo we e1 e2 e3 ++
        [⟨.CreateJobObject name, .handle (.ok job)⟩,
         ⟨.AssignProcessToJobObject job process.Process, .err (some err)⟩]) ∨
    (∃ name job err, r = .error (errorf "resume failed: " err) ∧
      evs = closeEvents ri wo we e1 e2 e3 ++
        [⟨.CreateJobObject name, .handle (.ok job)⟩,
         ⟨.AssignProcessToJobObject job process.Process, .err none⟩,
         ⟨.ResumeThread process.Thread, .number (.fail err)⟩]) ∨
    (∃ name job count, r = .ok ⟨job, process.Process⟩ wi ∧
      evs = closeEvents ri wo we e1 e2 e3 ++
        [⟨.CreateJobObject name, .handle (.ok job)⟩,
         ⟨.AssignProcessToJobObject job process.Process, .err none⟩,
         ⟨.ResumeThread process.Thread, .number (.ok count)⟩])

/-- The relevant events that `spawnProcess` can leave behind, with its result: nothing when
it fails before `CreateProcess`, the failed `CreateProcess`, or the successful
`CreateProcess` followed by the events of `spawnJob`. -/
def SpawnProcessShape (pf : Platform) (wo we ri wi : File) (r : SpawnResult)
    (evs : List WinEvent) : Prop :=
  ((r = .panic ∨ ∃ err, r = .error err) ∧ evs = []) ∨
  (∃ appName commandLine env dir si err, r = .error (errorf "create process: " err) ∧
    evs = [⟨.CreateProcess appName commandLine true (spawnFlags pf) env dir si,
      .process (.fail err)⟩]) ∨
  (∃ appName commandLine env dir si process rest,
    evs = ⟨.CreateProcess appName commandLine true (spawnFlags pf) env dir si,
      .process (.ok process)⟩ :: rest ∧
    SpawnJobShape process ri wo we wi r rest)

/-- The relevant events that `spawn` can leave behind, with its result: the `os.Pipe`
calls up to the first one that fails, followed, when all three succeed, by the events of
`spawnProcess`. -/
def SpawnShape (pf : Platform) (r : SpawnResult) (evs : List WinEvent) : Prop :=
  (∃ err, r = .error (errorf "pipe failed: " err) ∧ evs = [⟨.Pipe, .pipe (.fail err)⟩]) ∨
  (∃ ro wo err, r = .error (errorf "pipe failed: " err) ∧
    evs = [⟨.Pipe, .pipe (.ok (ro, wo))⟩, ⟨.Pipe, .pipe (.fail err)⟩]) ∨
  (∃ ro wo re we err, r = .error (errorf "pipe failed: " err) ∧
    evs = [⟨.Pipe, .pipe (.ok (ro, wo))⟩, ⟨.Pipe, .pipe (.ok (re, we))⟩,
      ⟨.Pipe, .pipe (.fail err)⟩]) ∨
  (∃ ro wo re we ri wi rest,
    evs = ⟨.Pipe, .pipe (.ok (ro, wo))⟩ :: ⟨.Pipe, .pipe (.ok (re, we))⟩ ::
      ⟨.Pipe, .pipe (.ok (ri, wi))⟩ :: rest ∧
    SpawnProcessShape pf wo we ri wi r rest)

/-- What a part of `spawn` started in the history `tr` leaves behind: its history extends
`tr`, and its result together with the relevant events that it added satisfies `P`. -/
def Outcome (tr : List WinEvent) (x : SpawnResult × List WinEvent)
    (P : SpawnResult → List WinEvent → Prop) : Prop :=
  ∃ evs, x.2 = tr ++ evs ∧ P x.1 (relevant evs)

/-- The job calls that a run of `spawn` can have made, with its result: none; a failed
`CreateProcess`; or a successful `CreateProcess` followed by the calls `CreateJobObject`,
`AssignProcessToJobObject` (of the new job to the new process) and `ResumeThread` (of the
thread of the new process), in this order, up to the first one that fails.  The result is
a process only in the last case, when all four succeeded, and it carries the job handle
and the process handle. -/
def JobCallsShape (pf : Platform) (r : SpawnResult) (jc : List WinEvent) : Prop :=
  ((∀ p s, r ≠ .ok p s) ∧ jc = []) ∨
  ∃ appName commandLine env dir si,
    (∃ err, (∀ p s, r ≠ .ok p s) ∧
      jc = [⟨.CreateProcess appName commandLine true (spawnFlags pf) env dir si,
        .process (.fail err)⟩]) ∨
    ∃ process,
      ((∀ p s, r ≠ .ok p s) ∧
        jc = [⟨.CreateProcess appName commandLine true (spawnFlags pf) env dir si,
          .process (.ok process)⟩]) ∨
      ∃ name,
        (∃ err, (∀ p s, r ≠ .ok p s) ∧
          jc = [⟨.CreateProcess appName commandLine true (spawnFlags pf) env dir si,
              .process (.ok process)⟩,
            ⟨.CreateJobObject name, .handle (.fail err)⟩]) ∨
        ∃ job,
          (∃ err, (∀ p s, r ≠ .ok p s) ∧
            jc = [⟨.CreateProcess appName commandLine true (spawnFlags pf) env dir si,
                .process (.ok process)⟩,
              ⟨.CreateJobObject name, .handle (.ok job)⟩,
              ⟨.AssignProcessToJobObject job process.Process, .err (some err)⟩]) ∨
          (∃ err, (∀ p s, r ≠ .ok p s) ∧
            jc = [⟨.CreateProcess appName commandLine true (spawnFlags pf) env dir si,
                .process (.ok process)⟩,
              ⟨.CreateJobObject name, .handle (.ok job)⟩,
              ⟨.AssignProcessToJobObject job process.Process, .err none⟩,
              ⟨.ResumeThread process.Thread, .number (.fail err)⟩]) ∨
          (∃ count stdin, r = .ok ⟨job, process.Process⟩ stdin ∧
            jc = [⟨.CreateProcess appName commandLine true (spawnFlags pf) env dir si,
                .process (.ok process)⟩,
              ⟨.CreateJobObject name, .handle (.ok job)⟩,
              ⟨.AssignProcessToJobObject job process.Process, .err none⟩,
              ⟨.ResumeThread process.Thread, .number (.ok count)⟩])

/-! ## Hosts and inputs for the evaluation at concrete inputs -/

/-- A Windows host on which every call succeeds: handles are numbered by the length of the
history, the clock shows the length of the history, a waited-for process has exited with
code 42. -/
def happyWindows : Windows where
  Pipe := fun tr => .ok (100 + 2 * tr.length, 101 + 2 * tr.length)
  GetCurrentProcess := fun _ => 1
  DuplicateHandle := fun tr _ _ _ _ _ _ => .ok (200 + tr.length)
  CloseHandle := fun _ _ => none
  CreateProcess := fun tr _ _ _ _ _ _ _ => .ok ⟨300 + tr.length, 400 + tr.length, 500, 600⟩
  FileClose := fun _ _ => none
  Now := fun tr => tr.length
  CreateJobObject := fun tr _ => .ok (700 + tr.length)
  AssignProcessToJobObject := fun _ _ _ => none
  ResumeThread := fun _ _ => .ok 1
  TerminateJobObject := fun _ _ _ => (1, some (.os (ascii "The operation completed successfully.")))
  WaitForSingleObject := fun _ _ _ => (WAIT_OBJECT_0, none)
  GetExitCodeProcess := fun _ _ => .ok 42
  GetProcessTimes := fun _ _ => none

/-- The text of the Windows error `ERROR_ACCESS_DENIED`. -/
def accessDenied : GoError := .os (ascii "Access is denied.")

/-- The command `C:\tools\run.exe -v` in directory `C:\work` with two environment strings. -/
def sampleCmd : Cmd where
  Path := ascii "C:\\tools\\run.exe"
  Args := [ascii "run.exe", ascii "-v"]
  Env := [ascii "A=1", ascii "PATH=C:\\bin"]
  Dir := ascii "C:\\work"

/-- The container of the example of the specification: `/hostA` on `data` read-write,
`/hostB` on `data/nested` read-only, under the working directory `/depot/c1`. -/
def sampleContainer : Container where
  workDir := ascii "/depot/c1"
  BindMounts :=
    [⟨ascii "/hostA", ascii "data", BindMountModeRW⟩,
     ⟨ascii "/hostB", ascii "data/nested", BindMountModeRO⟩]

/-- A Linux host on which every call succeeds. -/
def happyKernel : Kernel := fun _ _ => none

/-- A Linux host on which every `Unmount` fails with `EBUSY` and every other call
succeeds. -/
def busyKernel : Kernel := fun _ c =>
  match c with
  | .unmount _ _ => some (.os (ascii "device or resource busy"))
  | _ => none

/-- A Linux host on which the `Mount` onto `/depot/c1/data/nested` fails with `EPERM` and
every other call succeeds. -/
def nestedDeniedKernel : Kernel := fun _ c =>
  match c with
  | .mount _ target _ _ _ =>
    if target = ascii "/depot/c1/data/nested" then some (.os (ascii "operation not permitted"))
    else none
  | _ => none

/-- A Windows host on which `CreateJobObject` fails with `ERROR_ACCESS_DENIED` and every
other call succeeds. -/
def noJobWindows : Windows :=
  { happyWindows with CreateJobObject := fun _ _ => .fail accessDenied }

/-- The first three calls of `setup` for `sampleContainer` on a host where they succeed. -/
def sampleFirstThree : List Event :=
  [⟨.mkdirAll (ascii "/depot/c1/data") 0o755, none⟩,
   ⟨.mount (ascii "/hostA") (ascii "/depot/c1/data") (ascii "none") 0x1000 (ascii ""), none⟩,
   ⟨.mkdirAll (ascii "/depot/c1/data/nested") 0o755, none⟩]

/-! # Theorems -/

/-! ## `container.setup` and `container.unsetup` -/

section Mounts

variable (join : GoString → GoString → GoString) (k : Kernel)

theorem issued_append {α : Type} (tr evs : List α) : issued tr (tr ++ evs) = evs := by
  simp [issued]

theorem mountTargets_append (xs ys : List Event) :
    mountTargets (xs ++ ys) = mountTargets xs ++ mountTargets ys := by
  induction xs with
  | nil => rfl
  | cons x xs ih =>
    obtain ⟨c, e⟩ := x
    cases c <;> simp [mountTargets, ih]

theorem unmountTargets_append (xs ys : List Event) :
    unmountTargets (xs ++ ys) = unmountTargets xs ++ unmountTargets ys := by
  induction xs with
  | nil => rfl
  | cons x xs ih =>
    obtain ⟨c, e⟩ := x
    cases c <;> simp [unmountTargets, ih]

theorem mountTargets_okEvents (workDir : GoString) (bms : List BindMount) :
    mountTargets (okEvents join workDir bms) = bms.map (fun bm => join workDir bm.DstPath) := by
  induction bms with
  | nil => rfl
  | cons bm rest ih => simp [okEvents, entryEvents, mountTargets, ih]

theorem unmountTargets_okEvents (workDir : GoString) (bms : List BindMount) :
    unmountTargets (okEvents join workDir bms) = [] := by
  induction bms with
  | nil => rfl
  | cons bm rest ih => simp [okEvents, entryEvents, unmountTargets, ih]

theorem okEvents_append (workDir : GoString) (xs ys : List BindMount) :
    okEvents join workDir (xs ++ ys) = okEvents join workDir xs ++ okEvents join workDir ys := by
  induction xs with
  | nil => rfl
  | cons x xs ih => simp [okEvents, ih]

/-- Every history that `setupLoop` can leave behind: either all entries went through, or
the entries before some entry `n` went through and entry `n` failed in `MkdirAll` or in
`Mount`. -/
theorem setupLoop_trace (workDir : GoString) (bms : List BindMount) (tr : List Event) :
    ((setupLoop join k workDir bms tr).1 = none ∧
      (setupLoop join k workDir bms tr).2 = tr ++ okEvents join workDir bms) ∨
    ∃ n bm cause, bms[n]? = some bm ∧
      (((setupLoop join k workDir bms tr).1 =
            some (errorf "failed to create target for bind mount: " cause) ∧
          (setupLoop join k workDir bms tr).2 =
            tr ++ (okEvents join workDir (bms.take n) ++
              [⟨.mkdirAll (join workDir bm.DstPath) 0o755, some cause⟩])) ∨
        ((setupLoop join k workDir bms tr).1 = some cause ∧
          (setupLoop join k workDir bms tr).2 =
            tr ++ (okEvents join workDir (bms.take n) ++
              [⟨.mkdirAll (join workDir bm.DstPath) 0o755, none⟩,
               ⟨.mount bm.SrcPath (join workDir bm.DstPath) (ascii "none")
                  (if bm.Mode = BindMountModeRO then MS_BIND ||| MS_RDONLY else MS_BIND)
                  (ascii ""), some cause⟩]))) := by
  induction bms generalizing tr with
  | nil => left; simp [setupLoop, okEvents]
  | cons bm rest ih =>
    cases h1 : k tr (.mkdirAll (join workDir bm.DstPath) 0o755) with
    | some cause =>
      right
      refine ⟨0, bm, cause, by simp, Or.inl ?_⟩
      simp [setupLoop, invoke, h1, okEvents]
    | none =>
      cases h2 : k (tr ++ [⟨.mkdirAll (join workDir bm.DstPath) 0o755, none⟩])
          (.mount bm.SrcPath (join workDir bm.DstPath) (ascii "none")
            (if bm.Mode = BindMountModeRO then MS_BIND ||| MS_RDONLY else MS_BIND)
            (ascii "")) with
      | some cause =>
        right
        refine ⟨0, bm, cause, by simp, Or.inr ?_⟩
        simp [setupLoop, invoke, h1, h2, okEvents]
      | none =>
        have hstep : setupLoop join k workDir (bm :: rest) tr =
            setupLoop join k workDir rest (tr ++ entryEvents join workDir bm) := by
          simp [setupLoop, invoke, h1, h2, entryEvents]
        rw [hstep]
        rcases ih (tr ++ entryEvents join workDir bm) with ⟨hr, ht⟩ | ⟨n, bm', cause, hn, h⟩
        · left
          refine ⟨hr, ?_⟩
          rw [ht]; simp [okEvents]
        · right
          refine ⟨n + 1, bm', cause, by simpa using hn, ?_⟩
          rcases h with ⟨hr, ht⟩ | ⟨hr, ht⟩
          · left; refine ⟨hr, ?_⟩; rw [ht]; simp [okEvents]
          · right; refine ⟨hr, ?_⟩; rw [ht]; simp [okEvents]

theorem unsetupLoop_trace (container : Container) (n : Nat)
    (hn : n ≤ container.BindMounts.length) (tr : List Event) :
    ∃ evs, unsetupLoop join k container n tr = tr ++ evs ∧
      evs.map Event.call = ((container.BindMounts.take n).reverse).map
        (fun bm => Syscall.unmount (join container.workDir bm.DstPath) MNT_FORCE) := by
  induction n generalizing tr with
  | zero => exact ⟨[], by simp [unsetupLoop]⟩
  | succ i ih =>
    have hi : i < container.BindMounts.length := hn
    have hget : container.BindMounts[i]? = some container.BindMounts[i] :=
      List.getElem?_eq_getElem hi
    obtain ⟨evs, h1, h2⟩ := ih (Nat.le_of_lt hi)
      (tr ++ [⟨.unmount (join container.workDir container.BindMounts[i].DstPath) MNT_FORCE,
        k tr (.unmount (join container.workDir container.BindMounts[i].DstPath) MNT_FORCE)⟩])
    refine ⟨⟨.unmount (join container.workDir container.BindMounts[i].DstPath) MNT_FORCE,
        k tr (.unmount (join container.workDir container.BindMounts[i].DstPath) MNT_FORCE)⟩
        :: evs, ?_, ?_⟩
    · simp only [unsetupLoop, hget, invoke]
      rw [h1]; simp
    · rw [List.take_succ, hget]
      simp only [Option.toList_some, List.reverse_append, List.reverse_cons, List.reverse_nil,
        List.nil_append, List.singleton_append, List.map_cons, h2]

theorem unmountTargets_of_calls (join : GoString → GoString → GoString) (workDir : GoString)
    (evs : List Event) (bms : List BindMount)
    (h : evs.map Event.call =
      bms.map (fun bm => Syscall.unmount (join workDir bm.DstPath) MNT_FORCE)) :
    unmountTargets evs = bms.map (fun bm => join workDir bm.DstPath) := by
  induction bms generalizing evs with
  | nil => simp at h; subst h; rfl
  | cons bm rest ih =>
    cases evs with
    | nil => simp at h
    | cons ev evs =>
      obtain ⟨c, e⟩ := ev
      simp only [List.map_cons, List.cons.injEq] at h
      obtain ⟨hc, hrest⟩ := h
      subst hc
      simp [unmountTargets, ih evs hrest]

theorem okEvents_filter_ok (workDir : GoString) (bms : List BindMount) :
    (okEvents join workDir bms).filter (fun ev => decide (ev.err = none)) =
      okEvents join workDir bms := by
  induction bms with
  | nil => rfl
  | cons bm rest ih => simp [okEvents, entryEvents, ih]

theorem okEvents_length (workDir : GoString) (bms : List BindMount) :
    (okEvents join workDir bms).length = 2 * bms.length := by
  induction bms with
  | nil => rfl
  | cons bm rest ih => simp [okEvents, entryEvents, ih]; omega

/-- Where a `Mount` event can sit in a history that starts with the events of entries that
went through: inside those events, right after the `MkdirAll` of its entry, or in the rest. -/
theorem okEvents_mount_split (workDir : GoString) (bms : List BindMount)
    (rest pre post : List Event) (src tgt fs : GoString) (flags : Nat) (data : GoString)
    (err : Option GoError)
    (h : okEvents join workDir bms ++ rest = pre ++ ⟨.mount src tgt fs flags data, err⟩ :: post) :
    (∃ n bm pre', bms[n]? = some bm ∧ pre.length = 2 * n + 1 ∧
        pre = pre' ++ [⟨.mkdirAll (join workDir bm.DstPath) 0o755, none⟩] ∧
        (⟨.mount src tgt fs flags data, err⟩ : Event) =
          ⟨.mount bm.SrcPath (join workDir bm.DstPath) (ascii "none")
            (if bm.Mode = BindMountModeRO then MS_BIND ||| MS_RDONLY else MS_BIND)
            (ascii ""), none⟩) ∨
    ∃ pre2, pre = okEvents join workDir bms ++ pre2 ∧
      rest = pre2 ++ ⟨.mount src tgt fs flags data, err⟩ :: post := by
  induction bms generalizing pre with
  | nil => right; exact ⟨pre, by simp [okEvents], by simpa [okEvents] using h⟩
  | cons bm bms ih =>
    simp only [okEvents, entryEvents, List.cons_append, List.nil_append] at h
    match pre, h with
    | [], h => simp at h
    | [e1], h =>
      left
      simp only [List.cons_append, List.nil_append, List.cons.injEq] at h
      obtain ⟨h1, h2, -⟩ := h
      exact ⟨0, bm, [], by simp, by simp, by simp [h1], h2.symm⟩
    | e1 :: e2 :: pre3, h =>
      simp only [List.cons_append, List.cons.injEq] at h
      obtain ⟨h1, h2, h3⟩ := h
      rcases ih pre3 h3 with ⟨n, bm', pre', hn, hlen, hpre, hev⟩ | ⟨pre2, hpre, hrest⟩
      · left
        refine ⟨n + 1, bm', e1 :: e2 :: pre', by simpa using hn, ?_, by simp [hpre], hev⟩
        simp [hlen]; omega
      · right
        refine ⟨pre2, ?_, hrest⟩
        simp [okEvents, entryEvents, ← h1, ← h2, hpre]

end Mounts

/-- C1: when `setup` completes successfully, the destinations that `unsetup` passes to
`Unmount` are exactly the destinations that `setup` passed to `Mount`, in reverse order.
This holds for every list of bind mounts (the empty one included), for every history in
which `unsetup` is started and whatever the host answers to the unmount calls. -/
theorem unsetup_unmounts_in_reverse_of_setup (join : GoString → GoString → GoString)
    (k k' : Kernel) (container : Container) (tr tr' : List Event)
    (hok : (setup join k container tr).1 = none) :
    unmountTargets (issued tr' (unsetup join k' container tr').2) =
      (mountTargets (issued tr (setup join k container tr).2)).reverse := by
  have hsetup : issued tr (setup join k container tr).2 =
      okEvents join container.workDir container.BindMounts := by
    rcases setupLoop_trace join k container.workDir container.BindMounts tr with
      ⟨-, ht⟩ | ⟨n, bm, cause, -, ⟨hr, -⟩ | ⟨hr, -⟩⟩
    · simp only [setup]; rw [ht, issued_append]
    · simp only [setup] at hok; rw [hr] at hok; simp at hok
    · simp only [setup] at hok; rw [hr] at hok; simp at hok
  obtain ⟨evs, h1, h2⟩ := unsetupLoop_trace join k' container container.BindMounts.length
    (Nat.le_refl _) tr'
  rw [hsetup, mountTargets_okEvents]
  simp only [unsetup]
  rw [h1, issued_append]
  rw [List.take_length] at h2
  rw [unmountTargets_of_calls join container.workDir evs _ h2, List.map_reverse]

/-- C2: `unsetup` returns nil and makes exactly one `Unmount` call with `MNT_FORCE` for each
declared bind mount, last entry first, whatever the host answers to each of them. -/
theorem unsetup_attempts_every_unmount (join : GoString → GoString → GoString)
    (k : Kernel) (container : Container) (tr : List Event) :
    (unsetup join k container tr).1 = none ∧
      (issued tr (unsetup join k container tr).2).map Event.call =
        container.BindMounts.reverse.map
          (fun bm => Syscall.unmount (join container.workDir bm.DstPath) MNT_FORCE) := by
  obtain ⟨evs, h1, h2⟩ := unsetupLoop_trace join k container container.BindMounts.length
    (Nat.le_refl _) tr
  refine ⟨rfl, ?_⟩
  simp only [unsetup]
  rw [h1, issued_append, h2, List.take_length]

/-- C3: if any call that `setup` makes fails, then there is an entry `n` such that `setup`
made the successful `MkdirAll` and `Mount` calls of the entries before `n`, in declared
order, followed either by the failed `MkdirAll` of entry `n` (the error returned is
"failed to create target for bind mount: " followed by the text of the cause) or by the
successful `MkdirAll` and the failed `Mount` of entry `n` (the error returned is the cause
itself), and nothing else: no call for a later entry and no `Unmount`. -/
theorem setup_fails_fast (join : GoString → GoString → GoString) (k : Kernel)
    (container : Container) (tr : List Event)
    (hfail : ∃ ev ∈ issued tr (setup join k container tr).2, ev.err ≠ none) :
    ∃ n bm cause, container.BindMounts[n]? = some bm ∧
      (((setup join k container tr).1 =
            some (errorf "failed to create target for bind mount: " cause) ∧
          issued tr (setup join k container tr).2 =
            okEvents join container.workDir (container.BindMounts.take n) ++
              [⟨.mkdirAll (join container.workDir bm.DstPath) 0o755, some cause⟩]) ∨
        ((setup join k container tr).1 = some cause ∧
          issued tr (setup join k container tr).2 =
            okEvents join container.workDir (container.BindMounts.take n) ++
              [⟨.mkdirAll (join container.workDir bm.DstPath) 0o755, none⟩,
               ⟨.mount bm.SrcPath (join container.workDir bm.DstPath) (ascii "none")
                  (if bm.Mode = BindMountModeRO then MS_BIND ||| MS_RDONLY else MS_BIND)
                  (ascii ""), some cause⟩])) ∧
      mountTargets ((issued tr (setup join k container tr).2).filter
          (fun ev => decide (ev.err = none))) =
        (container.BindMounts.take n).map (fun b => join container.workDir b.DstPath) ∧
      unmountTargets (issued tr (setup join k container tr).2) = [] := by
  rcases setupLoop_trace join k container.workDir container.BindMounts tr with
    ⟨-, ht⟩ | ⟨n, bm, cause, hn, ⟨hr, ht⟩ | ⟨hr, ht⟩⟩
  · exfalso
    obtain ⟨ev, hev, herr⟩ := hfail
    simp only [setup] at hev
    rw [ht, issued_append] at hev
    have : ev ∈ (okEvents join container.workDir container.BindMounts).filter
        (fun ev => decide (ev.err = none)) := by rw [okEvents_filter_ok]; exact hev
    simp at this
    exact herr this.2
  · refine ⟨n, bm, cause, hn, Or.inl ⟨hr, ?_⟩, ?_, ?_⟩
    · simp only [setup]; rw [ht, issued_append]
    · simp only [setup]; rw [ht, issued_append]
      simp [List.filter_append, okEvents_filter_ok, mountTargets_append, mountTargets_okEvents,
        mountTargets]
    · simp only [setup]; rw [ht, issued_append]
      simp [unmountTargets_append, unmountTargets_okEvents, unmountTargets]
  · refine ⟨n, bm, cause, hn, Or.inr ⟨hr, ?_⟩, ?_, ?_⟩
    · simp only [setup]; rw [ht, issued_append]
    · simp only [setup]; rw [ht, issued_append]
      simp [List.filter_append, okEvents_filter_ok, mountTargets_append, mountTargets_okEvents,
        mountTargets]
    · simp only [setup]; rw [ht, issued_append]
      simp [unmountTargets_append, unmountTargets_okEvents, unmountTargets]

/-- C4: every `Mount` call that `setup` makes belongs to an entry `bm` of the bind mounts
(entry `n`, the call being call number `2 * n + 1` of the run): its source is `bm.SrcPath`,
its destination is `filepath.Join(workDir, bm.DstPath)`, its flag word contains `MS_BIND`,
contains `MS_RDONLY` exactly when the mode is read-only, and is `MS_BIND|MS_RDONLY` for a
read-only entry and `MS_BIND` otherwise; and the call right before it is the successful
`MkdirAll` of the same destination with mode `0755`. -/
theorem setup_mount_arguments (join : GoString → GoString → GoString) (k : Kernel)
    (container : Container) (tr pre post : List Event) (src tgt fs : GoString) (flags : Nat)
    (data : GoString) (err : Option GoError)
    (h : issued tr (setup join k container tr).2 =
      pre ++ ⟨.mount src tgt fs flags data, err⟩ :: post) :
    ∃ n bm pre', container.BindMounts[n]? = some bm ∧ pre.length = 2 * n + 1 ∧
      src = bm.SrcPath ∧ tgt = join container.workDir bm.DstPath ∧
      fs = ascii "none" ∧ data = ascii "" ∧
      flags &&& MS_BIND = MS_BIND ∧
      (flags &&& MS_RDONLY = MS_RDONLY ↔ bm.Mode = BindMountModeRO) ∧
      flags = (if bm.Mode = BindMountModeRO then MS_BIND ||| MS_RDONLY else MS_BIND) ∧
      pre = pre' ++ [⟨.mkdirAll tgt 0o755, none⟩] := by
  have key : ∀ (bm : BindMount) (fl : Nat),
      fl = (if bm.Mode = BindMountModeRO then MS_BIND ||| MS_RDONLY else MS_BIND) →
      fl &&& MS_BIND = MS_BIND ∧ (fl &&& MS_RDONLY = MS_RDONLY ↔ bm.Mode = BindMountModeRO) := by
    intro bm fl hfl
    by_cases hm : bm.Mode = BindMountModeRO
    · rw [if_pos hm] at hfl; subst hfl; exact ⟨by decide, by simp [hm]; decide⟩
    · rw [if_neg hm] at hfl; subst hfl; exact ⟨by decide, by simp [hm]; decide⟩
  have fin : ∀ (n : Nat) (bm : BindMount) (pre' : List Event),
      container.BindMounts[n]? = some bm → pre.length = 2 * n + 1 →
      pre = pre' ++ [⟨.mkdirAll (join container.workDir bm.DstPath) 0o755, none⟩] →
      src = bm.SrcPath ∧ tgt = join container.workDir bm.DstPath ∧ fs = ascii "none" ∧
        flags = (if bm.Mode = BindMountModeRO then MS_BIND ||| MS_RDONLY else MS_BIND) ∧
        data = ascii "" →
      ∃ n bm pre', container.BindMounts[n]? = some bm ∧ pre.length = 2 * n + 1 ∧
        src = bm.SrcPath ∧ tgt = join container.workDir bm.DstPath ∧
        fs = ascii "none" ∧ data = ascii "" ∧
        flags &&& MS_BIND = MS_BIND ∧
        (flags &&& MS_RDONLY = MS_RDONLY ↔ bm.Mode = BindMountModeRO) ∧
        flags = (if bm.Mode = BindMountModeRO then MS_BIND ||| MS_RDONLY else MS_BIND) ∧
        pre = pre' ++ [⟨.mkdirAll tgt 0o755, none⟩] := by
    intro n bm pre' hn hlen hpre ⟨h1, h2, h3, h4, h5⟩
    exact ⟨n, bm, pre', hn, hlen, h1, h2, h3, h5, (key bm flags h4).1, (key bm flags h4).2, h4,
      by rw [h2]; exact hpre⟩
  simp only [setup] at h
  rcases setupLoop_trace join k container.workDir container.BindMounts tr with
    ⟨-, ht⟩ | ⟨n, bm, cause, hn, ⟨-, ht⟩ | ⟨-, ht⟩⟩
  · rw [ht, issued_append] at h
    have h' : okEvents join container.workDir container.BindMounts ++ [] =
        pre ++ ⟨.mount src tgt fs flags data, err⟩ :: post := by simpa using h
    rcases okEvents_mount_split join container.workDir _ _ _ _ _ _ _ _ _ _ h' with
      ⟨m, bm', pre', hm, hlen, hpre, hev⟩ | ⟨pre2, -, hrest⟩
    · simp only [Event.mk.injEq, Syscall.mount.injEq] at hev
      exact fin m bm' pre' hm hlen hpre hev.1
    · simp at hrest
  · rw [ht, issued_append] at h
    rcases okEvents_mount_split join container.workDir _ _ _ _ _ _ _ _ _ _ h with
      ⟨m, bm', pre', hm, hlen, hpre, hev⟩ | ⟨pre2, -, hrest⟩
    · simp only [Event.mk.injEq, Syscall.mount.injEq] at hev
      have hm' : container.BindMounts[m]? = some bm' := by
        rw [List.getElem?_take] at hm
        split at hm
        · exact hm
        · simp at hm
      exact fin m bm' pre' hm' hlen hpre hev.1
    · exfalso
      match pre2, hrest with
      | [], hrest => simp at hrest
      | _ :: pre3, hrest => simp at hrest
  · rw [ht, issued_append] at h
    rcases okEvents_mount_split join container.workDir _ _ _ _ _ _ _ _ _ _ h with
      ⟨m, bm', pre', hm, hlen, hpre, hev⟩ | ⟨pre2, hpre, hrest⟩
    · simp only [Event.mk.injEq, Syscall.mount.injEq] at hev
      have hm' : container.BindMounts[m]? = some bm' := by
        rw [List.getElem?_take] at hm
        split at hm
        · exact hm
        · simp at hm
      exact fin m bm' pre' hm' hlen hpre hev.1
    · match pre2, hrest, hpre with
      | [], hrest, _ => simp at hrest
      | [e1], hrest, hpre =>
        simp only [List.cons_append, List.nil_append, List.cons.injEq, Event.mk.injEq,
          Syscall.mount.injEq] at hrest
        obtain ⟨he1, ⟨⟨h1, h2, h3, h4, h5⟩, -⟩, -⟩ := hrest
        have hnlt : n < container.BindMounts.length := by
          by_contra hc
          rw [List.getElem?_eq_none (Nat.le_of_not_lt hc)] at hn
          exact absurd hn (by simp)
        refine fin n bm (okEvents join container.workDir (container.BindMounts.take n)) hn ?_
          (by rw [hpre, ← he1]) ⟨h1.symm, h2.symm, h3.symm, h4.symm, h5.symm⟩
        rw [hpre]
        simp [okEvents_length, List.length_take, Nat.min_eq_left (Nat.le_of_lt hnlt)]
      | _ :: _ :: pre3, hrest, _ => simp at hrest

/-! ## `jobProcess.Wait`, `jobProcess.Signal`, `lookExtensions` -/

theorem toInt_of_lt (bits x : Nat) (h : x < 2 ^ (bits - 1)) : toInt bits x = (x : Int) := by
  have hle : 2 ^ (bits - 1) ≤ 2 ^ bits := Nat.pow_le_pow_right (by decide) (Nat.sub_le _ _)
  have hmod : x % 2 ^ bits = x := Nat.mod_eq_of_lt (Nat.lt_of_lt_of_le h hle)
  simp [toInt, hmod, h]

/-- C5, as stated, fails.  On `windows/amd64`, when the wait reports `WAIT_OBJECT_0` and
the exit-code query yields 42 but `GetProcessTimes` fails, `Wait` returns -1 and an error.
On `windows/386`, when all queries succeed and the exit code is `0xC0000005`, `Wait`
returns the negative number -1073741819. -/
theorem Wait_exit_code_counterexample :
    ({ happyWindows with GetProcessTimes := fun _ _ => some accessDenied } : Windows).WaitForSingleObject
        [] 8 INFINITE = (WAIT_OBJECT_0, none) ∧
      (jobProcess.Wait windowsAmd64
          { happyWindows with GetProcessTimes := fun _ _ => some accessDenied } ⟨7, 8⟩ []).1 =
        (-1, some (.syscallError (ascii "GetProcessTimes") accessDenied)) ∧
      (jobProcess.Wait windowsAmd64
          { happyWindows with GetProcessTimes := fun _ _ => some accessDenied } ⟨7, 8⟩ []).1 ≠
        (42, none) ∧
      (jobProcess.Wait windows386
          { happyWindows with GetExitCodeProcess := fun _ _ => .ok 0xC0000005 } ⟨7, 8⟩ []).1 =
        (-1073741819, none) ∧
      (jobProcess.Wait windows386
          { happyWindows with GetExitCodeProcess := fun _ _ => .ok 0xC0000005 } ⟨7, 8⟩ []).1 ≠
        (0xC0000005, none) := by
  refine ⟨rfl, ?_, ?_, ?_, ?_⟩ <;> decide

/-- C5, amended: if `WaitForSingleObject` reports `WAIT_OBJECT_0`, `GetExitCodeProcess`
yields the exit code `c` (a `uint32`), `GetProcessTimes` succeeds as well, and `c` is below
`2 ^ (intSize - 1)` (every `uint32` is when `int` has 64 bits), then `Wait` returns
exactly `(c, nil)`. -/
theorem Wait_returns_exit_code (pf : Platform) (os : Windows) (process : jobProcess)
    (tr : List WinEvent) (c : Nat)
    (hwait : (os.WaitForSingleObject tr process.processHandle INFINITE).1 % 2 ^ 32 =
      WAIT_OBJECT_0)
    (hcode : os.GetExitCodeProcess
      (record tr (.WaitForSingleObject process.processHandle INFINITE)
        (.waited (os.WaitForSingleObject tr process.processHandle INFINITE).1
          (os.WaitForSingleObject tr process.processHandle INFINITE).2))
      process.processHandle = .ok c)
    (hc : c < 2 ^ 32)
    (htimes : os.GetProcessTimes
      (record
        (record tr (.WaitForSingleObject process.processHandle INFINITE)
          (.waited (os.WaitForSingleObject tr process.processHandle INFINITE).1
            (os.WaitForSingleObject tr process.processHandle INFINITE).2))
        (.GetExitCodeProcess process.processHandle) (.number (.ok c)))
      process.processHandle = none)
    (hfit : c < 2 ^ (pf.intSize - 1)) :
    (jobProcess.Wait pf os process tr).1 = ((c : Int), none) := by
  simp only [jobProcess.Wait, hwait, hcode, htimes, if_true, Nat.mod_eq_of_lt hc,
    toInt_of_lt _ _ hfit]

/-- C5, amended, at a concrete input: exit code 42 on `windows/amd64`. -/
theorem Wait_returns_exit_code_witness :
    (jobProcess.Wait windowsAmd64 happyWindows ⟨7, 8⟩ []).1 = (((42 : Nat) : Int), none) :=
  Wait_returns_exit_code windowsAmd64 happyWindows ⟨7, 8⟩ [] 42 rfl rfl (by decide) rfl
    (by decide)

/-- C6 at the failing input: when the `TerminateJobObject` request succeeds (the call
returns 1), `Signal` returns a non-nil `*os.SyscallError` naming "TerminateJobObject"; when
the request fails (the call returns 0), `Signal` returns nil.  In both cases exactly one
request is made, on the job handle and with exit code 1. -/
theorem Signal_reports_success_as_error :
    jobProcess.Signal windowsAmd64 happyWindows ⟨7, 8⟩ 15 [] =
        (some (.syscallError (ascii "TerminateJobObject")
            (.os (ascii "The operation completed successfully."))),
          [⟨.TerminateJobObject 7 1,
            .called 1 (some (.os (ascii "The operation completed successfully.")))⟩]) ∧
      jobProcess.Signal windowsAmd64
          { happyWindows with TerminateJobObject := fun _ _ _ => (0, some accessDenied) }
          ⟨7, 8⟩ 15 [] =
        (none, [⟨.TerminateJobObject 7 1, .called 0 (some accessDenied)⟩]) := by
  constructor <;> decide

/-- C9, as stated, fails for the path `/` and the directory `d`: the path begins with a
separator, so the described candidate is `/` itself, but `lookExtensions` looks up
`filepath.Join("d", "/")`, which is `d`. -/
theorem lookExtensions_single_separator :
    describedCandidate goWindows (ascii "/") (ascii "d") = ascii "/" ∧
      lookExtensions goWindows (ascii "/") (ascii "d") = goWindows.LookPath (ascii "d") ∧
      lookExtensions goWindows (ascii "/") (ascii "d") ≠
        goWindows.LookPath (describedCandidate goWindows (ascii "/") (ascii "d")) := by
  refine ⟨?_, ?_, ?_⟩ <;> decide

/-- C9, amended: `lookExtensions` returns exactly what `exec.LookPath` returns for one
candidate.  With `p` the given path, a bare file name rewritten as `filepath.Join(".", name)`,
the candidate is `filepath.Join(dir, p)` if and only if `dir` is not empty, `p` has no volume
name, and `p` is not a path of more than one byte that begins with a path separator;
otherwise the candidate is `p`. -/
theorem lookExtensions_candidate (lib : GoLib) (path dir : GoString) :
    lookExtensions lib path dir =
      lib.LookPath
        (if dir ≠ [] ∧ lib.VolumeName (rewrittenBareName lib path) = [] ∧
            ¬ (1 < (rewrittenBareName lib path).length ∧
              beginsWithSeparator lib (rewrittenBareName lib path) = true)
          then lib.Join dir (rewrittenBareName lib path)
          else rewrittenBareName lib path) := by
  simp only [lookExtensions, rewrittenBareName]
  generalize (if lib.Base path = path then lib.Join (ascii ".") path else path) = p
  have hsep : (1 < p.length ∧ lib.IsPathSeparator (p.getD 0 0) = true) ↔
      (1 < p.length ∧ beginsWithSeparator lib p = true) := by
    cases p with
    | nil => simp
    | cons c rest => simp [beginsWithSeparator]
  by_cases hd : dir = []
  · rw [if_pos hd, if_neg (fun h => h.1 hd)]
  · rw [if_neg hd]
    by_cases hv : lib.VolumeName p = []
    · rw [if_neg (fun h => h hv)]
      by_cases hs : 1 < p.length ∧ lib.IsPathSeparator (p.getD 0 0) = true
      · rw [if_pos hs, if_neg (fun h => h.2.2 (hsep.mp hs))]
      · rw [if_neg hs, if_pos ⟨hd, hv, fun h => hs (hsep.mpr h)⟩]
    · rw [if_pos hv, if_neg (fun h => hv h.2.1)]

/-! ## `createEnvBlock` -/

theorem copyInto_append (done room src : List UInt8) (h : src.length ≤ room.length) :
    copyInto (done ++ room) done.length (done.length + src.length) src =
      some (done ++ src ++ room.drop src.length, src.length) := by
  have hcond : done.length ≤ done.length + src.length ∧
      done.length + src.length ≤ (done ++ room).length := by
    rw [List.length_append]; omega
  have hmin : min (done.length + src.length - done.length) src.length = src.length := by omega
  simp only [copyInto, hcond, and_self, if_true, hmin, List.take_left, List.take_length,
    List.drop_append]

theorem writeCount_append (xs ys : List (Nat × Nat)) (k : Nat) :
    writeCount (xs ++ ys) k = writeCount xs k + writeCount ys k := by
  simp [writeCount, List.countP_append]

/-- The loop invariant of `fillEnv`: started with `i` bytes done and enough room for the
strings that remain, the loop does not panic, appends every string and a NUL byte after the
bytes done, advances `i` by the bytes appended, and writes every byte from the old `i` up to
the new `i` exactly once and no other byte. -/
theorem fillEnv_spec (envv : List GoString) (done room : List UInt8)
    (writes : List (Nat × Nat))
    (hroom : (envv.map (fun s => s.length + 1)).sum ≤ room.length) :
    ∃ ws, fillEnv envv ⟨done ++ room, done.length, writes⟩ =
        some ⟨done ++ (envv.map (fun s => s ++ [0])).flatten ++
            room.drop (envv.map (fun s => s.length + 1)).sum,
          done.length + (envv.map (fun s => s.length + 1)).sum, writes ++ ws⟩ ∧
      ∀ k, writeCount ws k =
        if done.length ≤ k ∧ k < done.length + (envv.map (fun s => s.length + 1)).sum
        then 1 else 0 := by
  induction envv generalizing done room writes with
  | nil =>
    refine ⟨[], by simp [fillEnv], ?_⟩
    intro k
    simp only [writeCount, List.countP_nil, List.map_nil, List.sum_nil]
    split_ifs <;> omega
  | cons s rest ih =>
    simp only [List.map_cons, List.sum_cons] at hroom
    have h1 : s.length ≤ room.length := by omega
    have h2 : ([0] : List UInt8).length ≤ (room.drop s.length).length := by
      simp only [List.length_drop, List.length_singleton]; omega
    have h3 : (rest.map (fun s => s.length + 1)).sum ≤
        ((room.drop s.length).drop ([0] : List UInt8).length).length := by
      simp only [List.length_drop, List.length_singleton]; omega
    have c1 := copyInto_append done room s h1
    have c2 := copyInto_append (done ++ s) (room.drop s.length) [0] h2
    obtain ⟨ws, hws, hcount⟩ := ih (done ++ s ++ [0])
      ((room.drop s.length).drop ([0] : List UInt8).length)
      (writes ++ [(done.length, s.length), (done.length + s.length, 1)]) h3
    refine ⟨[(done.length, s.length), (done.length + s.length, 1)] ++ ws, ?_, ?_⟩
    · simp only [List.length_append, List.length_singleton] at c2 hws
      simp only [fillEnv, c1, c2, hws]
      simp [Nat.add_assoc, Nat.add_comm 1]
    · intro k
      rw [writeCount_append, hcount k]
      simp only [writeCount, List.countP_cons, List.countP_nil, List.length_append,
        List.length_singleton, List.map_cons, List.sum_cons, decide_eq_true_eq]
      split_ifs <;> omega

/-- C10: `createEnvBlock` builds its byte buffer without a slice index out of bounds; the
buffer handed to the UTF-16 encoder is every string of `envv` followed by one NUL byte, in
list order, followed by one final NUL byte; its length is the sum of `len(s) + 1` over the
entries plus 1; every byte of it is written exactly once; for a non-empty list the block
is the encoding of this buffer, and for the empty list it is exactly two NUL code units. -/
theorem createEnvBlock_layout (envv : List GoString) :
    (∃ st, createEnvBuffer envv = some st ∧
      st.b = describedEnvBytes envv ∧
      st.b.length = (envv.map (fun s => s.length + 1)).sum + 1 ∧
      (∀ k, k < st.b.length → writeCount st.writes k = 1) ∧
      (∀ k, st.b.length ≤ k → writeCount st.writes k = 0) ∧
      (envv ≠ [] → createEnvBlock envv = some (utf16Encode (runes st.b)))) ∧
    createEnvBlock [] = some [0, 0] := by
  refine ⟨?_, by decide⟩
  have hfold : ∀ (l : List GoString) (n : Nat),
      l.foldl (fun length s => length + (s.length + 1)) n =
        n + (l.map (fun s => s.length + 1)).sum := by
    intro l
    induction l with
    | nil => intro n; simp
    | cons s rest ih => intro n; simp [ih, Nat.add_assoc]
  have hlen : ∀ l : List GoString,
      ((l.map (fun s => s ++ [(0 : UInt8)])).flatten).length =
        (l.map (fun s => s.length + 1)).sum := by
    intro l
    induction l with
    | nil => rfl
    | cons s rest ih =>
      simp only [List.map_cons, List.flatten_cons, List.length_append, List.length_singleton,
        List.sum_cons, ih]
  obtain ⟨ws, hfill, hcount⟩ := fillEnv_spec envv []
    (List.replicate ((envv.map (fun s => s.length + 1)).sum + 1) 0) []
    (by simp)
  have hdrop : (List.replicate ((envv.map (fun s => s.length + 1)).sum + 1) (0 : UInt8)).drop
      (envv.map (fun s => s.length + 1)).sum = [0] := by
    simp [List.drop_replicate]
  simp only [List.nil_append, List.length_nil, Nat.zero_add, hdrop] at hfill
  have hlast := copyInto_append ((envv.map (fun s => s ++ [(0 : UInt8)])).flatten) [0] [0]
    (Nat.le_refl _)
  simp only [hlen, List.length_singleton, List.drop_succ_cons, List.drop_zero] at hlast
  have hbuf : createEnvBuffer envv =
      some ⟨(envv.map (fun s => s ++ [(0 : UInt8)])).flatten ++ [0] ++ [],
        (envv.map (fun s => s.length + 1)).sum,
        ws ++ [((envv.map (fun s => s.length + 1)).sum, 1)]⟩ := by
    simp only [createEnvBuffer, hfold, Nat.zero_add, hfill, hlast]
  refine ⟨_, hbuf, by simp [describedEnvBytes], by simp [hlen], ?_, ?_, ?_⟩
  · intro k hk
    simp only [List.append_nil, List.length_append, hlen, List.length_singleton] at hk
    rw [writeCount_append, hcount k]
    simp only [writeCount, List.countP_cons, List.countP_nil, decide_eq_true_eq,
      List.length_nil]
    split_ifs <;> omega
  · intro k hk
    simp only [List.append_nil, List.length_append, hlen, List.length_singleton] at hk
    rw [writeCount_append, hcount k]
    simp only [writeCount, List.countP_cons, List.countP_nil, decide_eq_true_eq,
      List.length_nil]
    split_ifs <;> omega
  · intro hne
    have : envv.length ≠ 0 := by
      intro h; exact hne (List.length_eq_zero.mp h)
    simp only [createEnvBlock, this, if_false, hbuf]

/-! ## `spawn` -/

theorem relevant_append (xs ys : List WinEvent) :
    relevant (xs ++ ys) = relevant xs ++ relevant ys := by
  simp [relevant]

theorem runDeferred_trace (os : Windows) (defers : List WinCall)
    (hd : ∀ c ∈ defers, c.isCleanup = true) (tr : List WinEvent) :
    ∃ evs, runDeferred os defers tr = tr ++ evs ∧ relevant evs = [] := by
  induction defers generalizing tr with
  | nil => exact ⟨[], by simp [runDeferred], rfl⟩
  | cons c rest ih =>
    have hc := hd c (List.mem_cons_self _ _)
    have hrest : ∀ c' ∈ rest, c'.isCleanup = true :=
      fun c' h => hd c' (List.mem_cons_of_mem _ h)
    cases c <;> simp only [WinCall.isCleanup] at hc <;> try exact absurd hc (by decide)
    · obtain ⟨evs, h1, h2⟩ := ih hrest (record tr .ForkLockUnlock .unused)
      refine ⟨⟨.ForkLockUnlock, .unused⟩ :: evs, ?_, ?_⟩
      · rw [runDeferred, h1]
        · simp [record]
        · intro h hh; cases hh
      · simpa [relevant, WinEvent.isRelevant] using h2
    · rename_i h
      obtain ⟨evs, h1, h2⟩ := ih hrest (record tr (.CloseHandle h) (.err (os.CloseHandle tr h)))
      refine ⟨⟨.CloseHandle h, .err (os.CloseHandle tr h)⟩ :: evs, ?_, ?_⟩
      · rw [runDeferred, h1]; simp [record]
      · simpa [relevant, WinEvent.isRelevant] using h2

theorem duplicateHandles_trace (os : Windows) (p : Handle) (files fd : List Handle)
    (defers : List WinCall) (hd : ∀ c ∈ defers, c.isCleanup = true) (tr : List WinEvent) :
    ∃ evs, (duplicateHandles os p files fd defers tr).2.2 = tr ++ evs ∧ relevant evs = [] ∧
      ∀ c ∈ (duplicateHandles os p files fd defers tr).2.1, c.isCleanup = true := by
  induction files generalizing fd defers tr with
  | nil => exact ⟨[], by simp [duplicateHandles], rfl, by simpa [duplicateHandles] using hd⟩
  | cons file files ih =>
    by_cases hpos : 0 < file
    · cases hdup : os.DuplicateHandle tr p file p 0 true DUPLICATE_SAME_ACCESS with
      | fail err =>
        refine ⟨[⟨.DuplicateHandle p file p 0 true DUPLICATE_SAME_ACCESS, .handle (.fail err)⟩],
          ?_, ?_, ?_⟩
        · simp [duplicateHandles, hpos, hdup, record]
        · simp [relevant, WinEvent.isRelevant]
        · simpa [duplicateHandles, hpos, hdup] using hd
      | ok h =>
        have hd' : ∀ c ∈ WinCall.CloseHandle h :: defers, c.isCleanup = true := by
          intro c hc
          rcases List.mem_cons.mp hc with rfl | hc
          · rfl
          · exact hd c hc
        obtain ⟨evs, h1, h2, h3⟩ := ih (fd ++ [h]) (.CloseHandle h :: defers) hd'
          (record tr (.DuplicateHandle p file p 0 true DUPLICATE_SAME_ACCESS) (.handle (.ok h)))
        refine ⟨⟨.DuplicateHandle p file p 0 true DUPLICATE_SAME_ACCESS, .handle (.ok h)⟩ :: evs,
          ?_, ?_, ?_⟩
        · simp only [duplicateHandles, hpos, if_true, hdup, h1]; simp [record]
        · simpa [relevant, WinEvent.isRelevant] using h2
        · simpa only [duplicateHandles, hpos, if_true, hdup] using h3
    · obtain ⟨evs, h1, h2, h3⟩ := ih (fd ++ [0]) defers hd tr
      refine ⟨evs, ?_, h2, ?_⟩
      · simpa only [duplicateHandles, hpos, if_false] using h1
      · simpa only [duplicateHandles, hpos, if_false] using h3

theorem Outcome.deferred (os : Windows) (defers : List WinCall)
    (hd : ∀ c ∈ defers, c.isCleanup = true) (tr pre : List WinEvent) (r : SpawnResult)
    (P : SpawnResult → List WinEvent → Prop) (h : P r (relevant pre)) :
    Outcome tr (r, runDeferred os defers (tr ++ pre)) P := by
  obtain ⟨evs, h1, h2⟩ := runDeferred_trace os defers hd (tr ++ pre)
  refine ⟨pre ++ evs, ?_, ?_⟩
  · simp [h1]
  · simpa [relevant_append, h2] using h

theorem Outcome.bind (tr pre : List WinEvent) (x : SpawnResult × List WinEvent)
    (P Q : SpawnResult → List WinEvent → Prop) (hx : Outcome (tr ++ pre) x Q)
    (hPQ : ∀ r evs, Q r evs → P r (relevant pre ++ evs)) : Outcome tr x P := by
  obtain ⟨evs, h1, h2⟩ := hx
  refine ⟨pre ++ evs, ?_, ?_⟩
  · simp [h1]
  · rw [relevant_append]; exact hPQ _ _ h2

theorem spawnJob_outcome (os : Windows) (process : ProcessInformation) (ri wo we wi : File)
    (defers : List WinCall) (hd : ∀ c ∈ defers, c.isCleanup = true) (tr : List WinEvent) :
    Outcome tr (spawnJob os process ri wo we wi defers tr)
      (SpawnJobShape process ri wo we wi) := by
  simp only [spawnJob, record, List.append_assoc, List.singleton_append, List.cons_append,
    List.nil_append]
  split
  · refine Outcome.deferred os defers hd _ _ _ _ ?_
    exact ⟨_, _, _, Or.inl ⟨_, rfl, rfl⟩⟩
  · split
    · refine Outcome.deferred os defers hd _ _ _ _ ?_
      exact ⟨_, _, _, Or.inr (Or.inl ⟨_, _, rfl, rfl⟩)⟩
    · split
      · refine Outcome.deferred os defers hd _ _ _ _ ?_
        exact ⟨_, _, _, Or.inr (Or.inr (Or.inl ⟨_, _, _, rfl, rfl⟩))⟩
      · split
        · refine Outcome.deferred os defers hd _ _ _ _ ?_
          exact ⟨_, _, _, Or.inr (Or.inr (Or.inr (Or.inl ⟨_, _, _, rfl, rfl⟩)))⟩
        · refine Outcome.deferred os defers hd _ _ _ _ ?_
          exact ⟨_, _, _, Or.inr (Or.inr (Or.inr (Or.inr ⟨_, _, _, rfl, rfl⟩)))⟩

theorem relevant_nil : relevant [] = [] := rfl

theorem relevant_cons (a : WinEvent) (l : List WinEvent) :
    relevant (a :: l) = if a.isRelevant = true then a :: relevant l else relevant l := by
  simp only [relevant, List.filter_cons]

theorem duplicateHandles_result (os : Windows) (p : Handle) (files fd : List Handle)
    (defers : List WinCall) (hd : ∀ c ∈ defers, c.isCleanup = true) (tr : List WinEvent)
    (res : Res (List Handle)) (defers' : List WinCall) (tr' : List WinEvent)
    (h : duplicateHandles os p files fd defers tr = (res, defers', tr')) :
    ∃ evs, tr' = tr ++ evs ∧ relevant evs = [] ∧ ∀ c ∈ defers', c.isCleanup = true := by
  have key := duplicateHandles_trace os p files fd defers hd tr
  rw [h] at key
  exact key

theorem spawnProcess_outcome (pf : Platform) (lib : GoLib) (os : Windows) (cmd : Cmd)
    (stdout stderr : Writer) (ro wo re we ri wi : File) (tr : List WinEvent) :
    Outcome tr (spawnProcess pf lib os cmd stdout stderr ro wo re we ri wi tr)
      (SpawnProcessShape pf wo we ri wi) := by
  have hd0 : ∀ c ∈ [WinCall.ForkLockUnlock], c.isCleanup = true := by
    intro c hc; simp only [List.mem_singleton] at hc; subst hc; rfl
  simp only [spawnProcess, record, List.append_assoc, List.singleton_append, List.cons_append,
    List.nil_append]
  split
  · exact ⟨[_, _], rfl, Or.inl ⟨Or.inr ⟨_, rfl⟩, rfl⟩⟩
  · split
    · rename_i err defers tr' heq
      obtain ⟨evs, rfl, h2, h3⟩ := duplicateHandles_result os _ _ _ _ hd0 _ _ _ _ heq
      simp only [List.append_assoc, List.cons_append, List.nil_append]
      refine Outcome.deferred os _ h3 _ _ _ _ ?_
      simp only [relevant_cons, WinEvent.isRelevant, h2]
      exact Or.inl ⟨Or.inr ⟨_, rfl⟩, rfl⟩
    · rename_i fd defers tr' heq
      obtain ⟨evs, rfl, h2, h3⟩ := duplicateHandles_result os _ _ _ _ hd0 _ _ _ _ heq
      simp only [List.append_assoc, List.cons_append, List.nil_append]
      split
      · refine Outcome.deferred os _ h3 _ _ _ _ ?_
        simp only [relevant_cons, relevant_append, relevant_nil, WinEvent.isRelevant, h2,
          List.nil_append, if_true, if_false]
        exact Or.inl ⟨Or.inr ⟨_, rfl⟩, rfl⟩
      · split
        · refine Outcome.deferred os _ h3 _ _ _ _ ?_
          simp only [relevant_cons, relevant_append, relevant_nil, WinEvent.isRelevant, h2,
            List.nil_append, if_true, if_false]
          exact Or.inl ⟨Or.inr ⟨_, rfl⟩, rfl⟩
        · split
          · refine Outcome.deferred os _ h3 _ _ _ _ ?_
            simp only [relevant_cons, relevant_append, relevant_nil, WinEvent.isRelevant, h2,
              List.nil_append, if_true, if_false]
            exact Or.inl ⟨Or.inr ⟨_, rfl⟩, rfl⟩
          · split
            · refine Outcome.deferred os _ h3 _ _ _ _ ?_
              simp only [relevant_cons, relevant_append, relevant_nil, WinEvent.isRelevant, h2,
                List.nil_append, if_true, if_false]
              exact Or.inl ⟨Or.inl rfl, rfl⟩
            · split
              · refine Outcome.deferred os _ h3 _ _ _ _ ?_
                simp only [relevant_cons, relevant_append, relevant_nil, WinEvent.isRelevant, h2,
                  List.nil_append, if_true, if_false]
                exact Or.inr (Or.inl ⟨_, _, _, _, _, _, rfl, rfl⟩)
              · refine Outcome.bind tr _ _ _ _ (spawnJob_outcome os _ ri wo we wi defers h3 _) ?_
                intro r jevs hj
                simp only [relevant_cons, relevant_append, relevant_nil, WinEvent.isRelevant, h2,
                  List.nil_append, if_true, if_false, List.cons_append]
                exact Or.inr (Or.inr ⟨_, _, _, _, _, _, _, rfl, hj⟩)

/-- Every run of `spawn`: its history extends the given one, and its result and the
relevant events it added have one of the shapes of `SpawnShape`. -/
theorem spawn_outcome (pf : Platform) (lib : GoLib) (os : Windows) (cmd : Cmd)
    (stdout stderr : Writer) (tr : List WinEvent) :
    Outcome tr (spawn pf lib os cmd stdout stderr tr) (SpawnShape pf) := by
  simp only [spawn, record, List.append_assoc, List.singleton_append, List.cons_append,
    List.nil_append]
  split
  · exact ⟨[_], rfl, Or.inl ⟨_, rfl, rfl⟩⟩
  · split
    · exact ⟨[_, _], rfl, Or.inr (Or.inl ⟨_, _, _, rfl, rfl⟩)⟩
    · split
      · exact ⟨[_, _, _], rfl, Or.inr (Or.inr (Or.inl ⟨_, _, _, _, _, rfl, rfl⟩))⟩
      · refine Outcome.bind tr _ _ _ _
          (spawnProcess_outcome pf lib os cmd stdout stderr _ _ _ _ _ _ _) ?_
        intro r evs h
        exact Or.inr (Or.inr (Or.inr ⟨_, _, _, _, _, _, _, rfl, h⟩))

theorem jobCalls_relevant (evs : List WinEvent) : jobCalls (relevant evs) = jobCalls evs := by
  induction evs with
  | nil => rfl
  | cons ev evs ih =>
    obtain ⟨c, r⟩ := ev
    simp only [jobCalls, relevant] at ih
    cases c <;> simp [jobCalls, relevant, WinEvent.isJobCall, WinEvent.isRelevant, ih]

theorem fileCloses_relevant (evs : List WinEvent) :
    fileCloses (relevant evs) = fileCloses evs := by
  induction evs with
  | nil => rfl
  | cons ev evs ih =>
    obtain ⟨c, r⟩ := ev
    simp only [fileCloses, relevant] at ih
    cases c <;> simp [fileCloses, relevant, WinEvent.isRelevant, ih]

theorem pipesOpened_relevant (evs : List WinEvent) :
    pipesOpened (relevant evs) = pipesOpened evs := by
  induction evs with
  | nil => rfl
  | cons ev evs ih =>
    obtain ⟨c, r⟩ := ev
    simp only [pipesOpened, relevant] at ih
    cases c <;> simp [pipesOpened, relevant, WinEvent.isRelevant, ih]

theorem processCreated_relevant (evs : List WinEvent) :
    processCreated (relevant evs) = processCreated evs := by
  induction evs with
  | nil => rfl
  | cons ev evs ih =>
    obtain ⟨c, r⟩ := ev
    simp only [processCreated, relevant] at ih
    cases c <;> simp [processCreated, relevant, WinEvent.isRelevant, ih]

/-- C7, as stated, fails.  When `CreateProcess` fails, `spawn` returns the error
"create process: ..." and has closed none of the six pipe ends that it opened. -/
theorem spawn_leaves_pipes_open :
    (spawn windowsAmd64 goWindows
        { happyWindows with CreateProcess := fun _ _ _ _ _ _ _ _ => .fail accessDenied }
        sampleCmd 1 2 []).1 = .error (errorf "create process: " accessDenied) ∧
      stillOpen (issued []
        (spawn windowsAmd64 goWindows
          { happyWindows with CreateProcess := fun _ _ _ _ _ _ _ _ => .fail accessDenied }
          sampleCmd 1 2 []).2) = [100, 101, 102, 103, 104, 105] := by
  constructor <;> decide

/-- C7, amended: when `spawn` returns an error, then either no process was created and
`spawn` has called `Close` on no pipe end at all, or the process was created, the three
pipes `(ro, wo)`, `(re, we)`, `(ri, wi)` were opened, and `spawn` has called `Close` on
exactly `ri`, `wo` and `we`, in this order: the parent's ends `ro`, `re` and `wi` are
closed on no path. -/
theorem spawn_error_closes (pf : Platform) (lib : GoLib) (os : Windows) (cmd : Cmd)
    (stdout stderr : Writer) (tr : List WinEvent) (err : GoError)
    (h : (spawn pf lib os cmd stdout stderr tr).1 = .error err) :
    (processCreated (issued tr (spawn pf lib os cmd stdout stderr tr).2) = false ∧
      fileCloses (issued tr (spawn pf lib os cmd stdout stderr tr).2) = []) ∨
    (processCreated (issued tr (spawn pf lib os cmd stdout stderr tr).2) = true ∧
      ∃ ro wo re we ri wi,
        pipesOpened (issued tr (spawn pf lib os cmd stdout stderr tr).2) =
          [ro, wo, re, we, ri, wi] ∧
        fileCloses (issued tr (spawn pf lib os cmd stdout stderr tr).2) = [ri, wo, we]) := by
  obtain ⟨evs, h1, hshape⟩ := spawn_outcome pf lib os cmd stdout stderr tr
  rw [h1, issued_append, ← processCreated_relevant, ← fileCloses_relevant,
    ← pipesOpened_relevant]
  generalize relevant evs = rel at hshape
  generalize (spawn pf lib os cmd stdout stderr tr).1 = r at h hshape
  subst h
  rcases hshape with ⟨e, -, rfl⟩ | ⟨ro, wo, e, -, rfl⟩ | ⟨ro, wo, re, we, e, -, rfl⟩ |
    ⟨ro, wo, re, we, ri, wi, rest, rfl, hp⟩
  · left; exact ⟨rfl, rfl⟩
  · left; exact ⟨rfl, rfl⟩
  · left; exact ⟨rfl, rfl⟩
  · rcases hp with ⟨-, rfl⟩ | ⟨a, c, e, d, si, er, -, rfl⟩ | ⟨a, c, e, d, si, process, rest', rfl, hj⟩
    · left; exact ⟨rfl, rfl⟩
    · left; exact ⟨rfl, rfl⟩
    · right
      obtain ⟨e1, e2, e3, hj⟩ := hj
      rcases hj with ⟨er, -, rfl⟩ | ⟨n, er, -, rfl⟩ | ⟨n, j, er, -, rfl⟩ | ⟨n, j, er, -, rfl⟩ |
        ⟨n, j, cnt, hr, -⟩
      · exact ⟨rfl, ro, wo, re, we, ri, wi, rfl, rfl⟩
      · exact ⟨rfl, ro, wo, re, we, ri, wi, rfl, rfl⟩
      · exact ⟨rfl, ro, wo, re, we, ri, wi, rfl, rfl⟩
      · exact ⟨rfl, ro, wo, re, we, ri, wi, rfl, rfl⟩
      · cases hr

theorem notOk_error (err : GoError) (p : jobProcess) (s : File) :
    SpawnResult.error err ≠ .ok p s := by
  intro hc; cases hc

theorem notOk_panic (p : jobProcess) (s : File) : SpawnResult.panic ≠ .ok p s := by
  intro hc; cases hc

theorem jobCalls_shape (pf : Platform) (r : SpawnResult) (rel : List WinEvent)
    (h : SpawnShape pf r rel) : JobCallsShape pf r (jobCalls rel) := by
  rcases h with ⟨e, rfl, rfl⟩ | ⟨ro, wo, e, rfl, rfl⟩ | ⟨ro, wo, re, we, e, rfl, rfl⟩ |
    ⟨ro, wo, re, we, ri, wi, rest, rfl, hp⟩
  · exact Or.inl ⟨notOk_error _, rfl⟩
  · exact Or.inl ⟨notOk_error _, rfl⟩
  · exact Or.inl ⟨notOk_error _, rfl⟩
  · rcases hp with ⟨hr, rfl⟩ | ⟨a, c, e, d, si, er, rfl, rfl⟩ |
      ⟨a, c, e, d, si, process, rest', rfl, hj⟩
    · refine Or.inl ⟨?_, rfl⟩
      rcases hr with rfl | ⟨er, rfl⟩
      · exact notOk_panic
      · exact notOk_error _
    · exact Or.inr ⟨a, c, e, d, si, Or.inl ⟨er, notOk_error _, rfl⟩⟩
    · refine Or.inr ⟨a, c, e, d, si, Or.inr ⟨process, ?_⟩⟩
      obtain ⟨e1, e2, e3, hj⟩ := hj
      rcases hj with ⟨er, rfl, rfl⟩ | ⟨n, er, rfl, rfl⟩ | ⟨n, j, er, rfl, rfl⟩ |
        ⟨n, j, er, rfl, rfl⟩ | ⟨n, j, cnt, rfl, rfl⟩
      · exact Or.inl ⟨notOk_error _, rfl⟩
      · exact Or.inr ⟨n, Or.inl ⟨er, notOk_error _, rfl⟩⟩
      · exact Or.inr ⟨n, Or.inr ⟨j, Or.inl ⟨er, notOk_error _, rfl⟩⟩⟩
      · exact Or.inr ⟨n, Or.inr ⟨j, Or.inr (Or.inl ⟨er, notOk_error _, rfl⟩)⟩⟩
      · exact Or.inr ⟨n, Or.inr ⟨j, Or.inr (Or.inr ⟨cnt, wi, rfl, rfl⟩)⟩⟩

theorem spawnFlags_suspended (pf : Platform) :
    spawnFlags pf &&& pf.CREATE_SUSPENDED = pf.CREATE_SUSPENDED := by
  apply Nat.eq_of_testBit_eq
  intro i
  simp only [spawnFlags, Nat.testBit_and, Nat.testBit_or]
  cases pf.CREATE_SUSPENDED.testBit i <;> simp

/-- The job calls of every run of `spawn` have one of the shapes of `JobCallsShape`. -/
theorem spawn_jobCalls (pf : Platform) (lib : GoLib) (os : Windows) (cmd : Cmd)
    (stdout stderr : Writer) (tr : List WinEvent) :
    JobCallsShape pf (spawn pf lib os cmd stdout stderr tr).1
      (jobCalls (issued tr (spawn pf lib os cmd stdout stderr tr).2)) := by
  obtain ⟨evs, h1, hshape⟩ := spawn_outcome pf lib os cmd stdout stderr tr
  rw [h1, issued_append, ← jobCalls_relevant]
  exact jobCalls_shape pf _ _ hshape

/-- C8: in every run of `spawn`, (1) every `CreateProcess` call has `CREATE_SUSPENDED` in
its creation flags; (2) if `ResumeThread` is called at all, then the job calls of the run
are exactly a successful `CreateProcess`, a successful `CreateJobObject`, a successful
`AssignProcessToJobObject` of that job to that process, and the `ResumeThread`, on the
thread of that process, in this order; (3) if `spawn` returns a process, the job calls are
these four, all successful, and the process returned carries that job handle and that
process handle. -/
theorem spawn_resumes_after_job_assignment (pf : Platform) (lib : GoLib) (os : Windows)
    (cmd : Cmd) (stdout stderr : Writer) (tr : List WinEvent) :
    (∀ ev ∈ issued tr (spawn pf lib os cmd stdout stderr tr).2,
      ∀ appName commandLine inherit flags env dir si,
        ev.call = .CreateProcess appName commandLine inherit flags env dir si →
        flags &&& pf.CREATE_SUSPENDED = pf.CREATE_SUSPENDED) ∧
    (∀ thread res,
      (⟨.ResumeThread thread, res⟩ : WinEvent) ∈
        issued tr (spawn pf lib os cmd stdout stderr tr).2 →
      ∃ appName commandLine env dir si process name job,
        thread = process.Thread ∧
        jobCalls (issued tr (spawn pf lib os cmd stdout stderr tr).2) =
          [⟨.CreateProcess appName commandLine true (spawnFlags pf) env dir si,
              .process (.ok process)⟩,
            ⟨.CreateJobObject name, .handle (.ok job)⟩,
            ⟨.AssignProcessToJobObject job process.Process, .err none⟩,
            ⟨.ResumeThread thread, res⟩]) ∧
    (∀ p stdin, (spawn pf lib os cmd stdout stderr tr).1 = .ok p stdin →
      ∃ appName commandLine env dir si process name job count,
        p = ⟨job, process.Process⟩ ∧
        jobCalls (issued tr (spawn pf lib os cmd stdout stderr tr).2) =
          [⟨.CreateProcess appName commandLine true (spawnFlags pf) env dir si,
              .process (.ok process)⟩,
            ⟨.CreateJobObject name, .handle (.ok job)⟩,
            ⟨.AssignProcessToJobObject job process.Process, .err none⟩,
            ⟨.ResumeThread process.Thread, .number (.ok count)⟩]) := by
  have hjc := spawn_jobCalls pf lib os cmd stdout stderr tr
  have hmem : ∀ ev ∈ issued tr (spawn pf lib os cmd stdout stderr tr).2,
      ev.isJobCall = true →
      ev ∈ jobCalls (issued tr (spawn pf lib os cmd stdout stderr tr).2) := by
    intro ev hev hj
    exact List.mem_filter.mpr ⟨hev, hj⟩
  generalize jobCalls (issued tr (spawn pf lib os cmd stdout stderr tr).2) = jc at hjc hmem
  generalize (spawn pf lib os cmd stdout stderr tr).1 = r at hjc
  refine ⟨?_, ?_, ?_⟩
  · intro ev hev a c i f e d s hcall
    have hin := hmem ev hev (by simp [WinEvent.isJobCall, hcall])
    obtain ⟨ec, er⟩ := ev
    simp only at hcall
    subst hcall
    have hf : f = spawnFlags pf := by
      rcases hjc with ⟨-, rfl⟩ | ⟨a', c', e', d', s', ⟨_, -, rfl⟩ | ⟨pi, ⟨-, rfl⟩ |
        ⟨n, ⟨_, -, rfl⟩ | ⟨j, ⟨_, -, rfl⟩ | ⟨_, -, rfl⟩ | ⟨_, _, -, rfl⟩⟩⟩⟩⟩ <;>
        simp at hin <;> exact hin.1.2.2.2.1
    rw [hf]
    exact spawnFlags_suspended pf
  · intro th res hev
    have hin := hmem _ hev (by simp [WinEvent.isJobCall])
    rcases hjc with ⟨-, rfl⟩ | ⟨a', c', e', d', s', ⟨_, -, rfl⟩ | ⟨pi, ⟨-, rfl⟩ |
      ⟨n, ⟨_, -, rfl⟩ | ⟨j, ⟨_, -, rfl⟩ | ⟨er, -, rfl⟩ | ⟨cnt, wi, -, rfl⟩⟩⟩⟩⟩ <;>
      simp at hin
    · obtain ⟨rfl, rfl⟩ := hin
      exact ⟨a', c', e', d', s', pi, n, j, rfl, rfl⟩
    · obtain ⟨rfl, rfl⟩ := hin
      exact ⟨a', c', e', d', s', pi, n, j, rfl, rfl⟩
  · intro p stdin hr
    subst hr
    rcases hjc with ⟨hn, -⟩ | ⟨a', c', e', d', s', ⟨_, hn, -⟩ | ⟨pi, ⟨hn, -⟩ |
      ⟨n, ⟨_, hn, -⟩ | ⟨j, ⟨_, hn, -⟩ | ⟨er, hn, -⟩ | ⟨cnt, wi, hr, rfl⟩⟩⟩⟩⟩
    · exact absurd rfl (hn p stdin)
    · exact absurd rfl (hn p stdin)
    · exact absurd rfl (hn p stdin)
    · exact absurd rfl (hn p stdin)
    · exact absurd rfl (hn p stdin)
    · exact absurd rfl (hn p stdin)
    · simp only [SpawnResult.ok.injEq] at hr
      exact ⟨a', c', e', d', s', pi, n, j, cnt, hr.1, rfl⟩

/-! ## The statements at concrete inputs -/

/-- C1 at the example of the specification: `setup` succeeds, and `unsetup`, all of whose
unmounts fail, unmounts `data/nested` before `data`. -/
theorem unsetup_unmounts_in_reverse_of_setup_witness :
    (setup unixJoin happyKernel sampleContainer []).1 = none ∧
      unmountTargets (issued (setup unixJoin happyKernel sampleContainer []).2
          (unsetup unixJoin busyKernel sampleContainer
            (setup unixJoin happyKernel sampleContainer []).2).2) =
        (mountTargets (issued [] (setup unixJoin happyKernel sampleContainer []).2)).reverse ∧
      unmountTargets (issued (setup unixJoin happyKernel sampleContainer []).2
          (unsetup unixJoin busyKernel sampleContainer
            (setup unixJoin happyKernel sampleContainer []).2).2) =
        [ascii "/depot/c1/data/nested", ascii "/depot/c1/data"] :=
  ⟨by decide,
    unsetup_unmounts_in_reverse_of_setup unixJoin happyKernel busyKernel sampleContainer []
      (setup unixJoin happyKernel sampleContainer []).2 (by decide),
    by decide⟩

/-- C3 at the example of the specification, on a host that refuses the second mount. -/
theorem setup_fails_fast_witness :
    (∃ ev ∈ issued [] (setup unixJoin nestedDeniedKernel sampleContainer []).2, ev.err ≠ none) ∧
      (setup unixJoin nestedDeniedKernel sampleContainer []).1 =
        some (.os (ascii "operation not permitted")) ∧
      ∃ n bm cause, sampleContainer.BindMounts[n]? = some bm ∧
        (((setup unixJoin nestedDeniedKernel sampleContainer []).1 =
              some (errorf "failed to create target for bind mount: " cause) ∧
            issued [] (setup unixJoin nestedDeniedKernel sampleContainer []).2 =
              okEvents unixJoin sampleContainer.workDir (sampleContainer.BindMounts.take n) ++
                [⟨.mkdirAll (unixJoin sampleContainer.workDir bm.DstPath) 0o755, some cause⟩]) ∨
          ((setup unixJoin nestedDeniedKernel sampleContainer []).1 = some cause ∧
            issued [] (setup unixJoin nestedDeniedKernel sampleContainer []).2 =
              okEvents unixJoin sampleContainer.workDir (sampleContainer.BindMounts.take n) ++
                [⟨.mkdirAll (unixJoin sampleContainer.workDir bm.DstPath) 0o755, none⟩,
                 ⟨.mount bm.SrcPath (unixJoin sampleContainer.workDir bm.DstPath) (ascii "none")
                    (if bm.Mode = BindMountModeRO then MS_BIND ||| MS_RDONLY else MS_BIND)
                    (ascii ""), some cause⟩])) ∧
        mountTargets ((issued [] (setup unixJoin nestedDeniedKernel sampleContainer []).2).filter
            (fun ev => decide (ev.err = none))) =
          (sampleContainer.BindMounts.take n).map
            (fun b => unixJoin sampleContainer.workDir b.DstPath) ∧
        unmountTargets (issued [] (setup unixJoin nestedDeniedKernel sampleContainer []).2) = [] :=
  ⟨by decide, by decide,
    setup_fails_fast unixJoin nestedDeniedKernel sampleContainer [] (by decide)⟩

/-- C4 at the example of the specification: the second `Mount` call, for the read-only
entry. -/
theorem setup_mount_arguments_witness :
    issued [] (setup unixJoin happyKernel sampleContainer []).2 =
        sampleFirstThree ++
          ⟨.mount (ascii "/hostB") (ascii "/depot/c1/data/nested") (ascii "none") 0x1001
            (ascii ""), none⟩ :: [] ∧
      ∃ n bm pre', sampleContainer.BindMounts[n]? = some bm ∧
        sampleFirstThree.length = 2 * n + 1 ∧
        ascii "/hostB" = bm.SrcPath ∧
        ascii "/depot/c1/data/nested" = unixJoin sampleContainer.workDir bm.DstPath ∧
        ascii "none" = ascii "none" ∧ ascii "" = ascii "" ∧
        0x1001 &&& MS_BIND = MS_BIND ∧
        (0x1001 &&& MS_RDONLY = MS_RDONLY ↔ bm.Mode = BindMountModeRO) ∧
        0x1001 = (if bm.Mode = BindMountModeRO then MS_BIND ||| MS_RDONLY else MS_BIND) ∧
        sampleFirstThree = pre' ++ [⟨.mkdirAll (ascii "/depot/c1/data/nested") 0o755, none⟩] :=
  ⟨by decide,
    setup_mount_arguments unixJoin happyKernel sampleContainer [] sampleFirstThree []
      (ascii "/hostB") (ascii "/depot/c1/data/nested") (ascii "none") 0x1001 (ascii "") none
      (by decide)⟩

/-- C7, amended, on a host where the job cannot be created: the process was created, six
pipe ends were opened and the child's three ends were closed. -/
theorem spawn_error_closes_witness :
    (spawn windowsAmd64 goWindows noJobWindows sampleCmd 1 2 []).1 =
        .error (errorf "create job failed: " accessDenied) ∧
      pipesOpened (issued [] (spawn windowsAmd64 goWindows noJobWindows sampleCmd 1 2 []).2) =
        [100, 101, 102, 103, 104, 105] ∧
      fileCloses (issued [] (spawn windowsAmd64 goWindows noJobWindows sampleCmd 1 2 []).2) =
        [104, 101, 103] ∧
      ((processCreated
            (issued [] (spawn windowsAmd64 goWindows noJobWindows sampleCmd 1 2 []).2) = false ∧
          fileCloses
            (issued [] (spawn windowsAmd64 goWindows noJobWindows sampleCmd 1 2 []).2) = []) ∨
        (processCreated
            (issued [] (spawn windowsAmd64 goWindows noJobWindows sampleCmd 1 2 []).2) = true ∧
          ∃ ro wo re we ri wi,
            pipesOpened
                (issued [] (spawn windowsAmd64 goWindows noJobWindows sampleCmd 1 2 []).2) =
              [ro, wo, re, we, ri, wi] ∧
            fileCloses
                (issued [] (spawn windowsAmd64 goWindows noJobWindows sampleCmd 1 2 []).2) =
              [ri, wo, we])) :=
  ⟨by decide, by decide, by decide,
    spawn_error_closes windowsAmd64 goWindows noJobWindows sampleCmd 1 2 []
      (errorf "create job failed: " accessDenied) (by decide)⟩

/-- A run of `spawn` on a host where every call succeeds: `spawn` returns the process with the job
handle and the process handle and the write end of the standard-input pipe, and the job
calls are `CreateProcess`, `CreateJobObject`, `AssignProcessToJobObject`, `ResumeThread`. -/
theorem spawn_succeeds_on_happy_host :
    (spawn windowsAmd64 goWindows happyWindows sampleCmd 1 2 []).1 = .ok ⟨715, 310⟩ 105 ∧
      (jobCalls (issued [] (spawn windowsAmd64 goWindows happyWindows sampleCmd 1 2 []).2)).map
          (fun ev => ev.result) =
        [.process (.ok ⟨310, 410, 500, 600⟩), .handle (.ok 715), .err none, .number (.ok 1)] := by
  constructor <;> decide

/-- The environment block of two strings: the buffer is `A=1`, NUL, `PATH=C:\bin`, NUL, NUL, and
the five writes that fill it tile it. -/
theorem createEnvBuffer_example :
    createEnvBuffer sampleCmd.Env =
        some ⟨ascii "A=1" ++ [0] ++ ascii "PATH=C:\\bin" ++ [0] ++ [0], 16,
          [(0, 3), (3, 1), (4, 11), (15, 1), (16, 1)]⟩ ∧
      createEnvBlock sampleCmd.Env =
        some [65, 61, 49, 0, 80, 65, 84, 72, 61, 67, 58, 92, 98, 105, 110, 0, 0] := by
  constructor <;> decide

end Houdini
